
import Mathlib

/-!
Verification of the fieldbox/sat-comp CDCL SAT solver.

This file gives a shallow embedding of the two source files of the
repository, `src/fieldSAT.cpp` (the full CDCL solver, namespace `FieldSAT`)
and `src/dpll.cpp` (the earlier two-watched-literal propagation core,
namespace `DPLL`), and proves or refutes the frozen claims about them.

Modelling conventions:
* C++ `int` becomes `Int` (no arithmetic here approaches 2^31, so no
  wrap-around modelling is needed); `std::size_t` quantities that are used
  as list lengths/indices become `Nat`.
* C++ `double` becomes `ℚ`. The only floating-point data are the VSIDS
  activities (initial value 1, additive bumps by 1, multiplicative decay by
  0.95) and the restart threshold scaling by 1.5; these are modelled
  exactly as rationals.
* `std::vector` becomes `List`, indexed with `List.getD` and updated with
  `List.set`; out-of-bounds accesses (undefined behaviour in C++) read the
  stated default.  Theorems about such code carry bounds hypotheses.
* Heap-allocated `Clause` objects (`new Clause`) live in an arena
  (`List Clause`); a C++ `Clause *` becomes the arena index (`Nat`), a null
  pointer becomes `none` of `Option Nat`.  Pointer equality becomes index
  equality, which is faithful because each `new` yields a fresh index.
* Dereferencing a null `Clause *` (undefined behaviour) is modelled by the
  enclosing function returning `none`; likewise unbounded C++ loops are run
  on explicit fuel and return `none` when the fuel is exhausted, so a
  `some` result always corresponds to an actual terminating C++ execution.
-/

namespace FieldSAT

/-- The three-valued assignment state, `enum Value` of fieldSAT.cpp. -/
inductive Value where
  | TRUE
  | FALSE
  | UNASSIGNED
deriving DecidableEq, Repr

/-- The clause record of fieldSAT.cpp: literal list, the two watch indices,
clause activity and the reduction tombstone flag. -/
structure Clause where
  literals : List Int
  watch1 : Nat
  watch2 : Nat
  activity : ℚ := 0
  toRemove : Bool := false
deriving DecidableEq, Repr

instance : Inhabited Clause := ⟨{ literals := [], watch1 := 0, watch2 := 0 }⟩

/-- The module-level mutable state of fieldSAT.cpp, bundled into one record.
Field names follow the C++ globals. -/
structure SolverState where
  num_vars : Nat
  arena : List Clause
  clauses : List Nat
  trail : List Int
  trail_head : Nat
  assignments : List Value
  assigned_vars : Int
  last_assignments : List Value
  watchers : List (List Nat)
  trail_decisions : List Nat
  decision_levels : List Int
  reasons : List (Option Nat)
  conflict_clause : Option Nat
  activity : List ℚ
  learned_clauses : List Nat
  num_conflicts : Int
  max_conflicts : Int
deriving DecidableEq, Repr

def activity_inc : ℚ := 1

def activity_decay : ℚ := mkRat 19 20

def clause_activity_inc : ℚ := 1

def clause_activity_decay : ℚ := mkRat 19 20

def reduction_threshold : Int := 3000

/-- C++ conversion of a `double` to an `int` (as in
`int highest_activity = activity[i]` and `max_conflicts *= 1.5`): the value
is truncated toward zero, which is exactly `Int.tdiv` of the numerator by
the denominator of the rational. -/
def cppTrunc (q : ℚ) : Int := Int.tdiv q.num (q.den : Int)

/-- Rational addition, written through `mkRat` so that every arithmetic
step of the solver evaluates by kernel reduction.  `ratAdd_eq` below proves
it is exactly `+` on `ℚ`. -/
def ratAdd (a b : ℚ) : ℚ := mkRat (a.num * b.den + b.num * a.den) (a.den * b.den)

/-- Rational multiplication through `mkRat`; `ratMul_eq` proves it is
exactly `*` on `ℚ`. -/
def ratMul (a b : ℚ) : ℚ := mkRat (a.num * b.num) (a.den * b.den)

/-- Strict comparison of rationals by cross-multiplication; `ratLt_iff`
proves it decides `<` on `ℚ`. -/
def ratLt (a b : ℚ) : Bool := Decidable.decide (a.num * (b.den : Int) < b.num * (a.den : Int))

/-- `get_literal_index` of fieldSAT.cpp: positive v maps to 2v-1, negative v
to 2|v|-2. -/
def get_literal_index (literal : Int) : Int :=
  if literal > 0 then 2 * literal - 1 else 2 * (-literal) - 2

/-- The literal index clamped to `Nat` for use as a list index (the C++ code
uses the `int` result directly as a vector index; it is nonnegative for
every nonzero literal). -/
def wIdx (literal : Int) : Nat := (get_literal_index literal).toNat

/-- `value_of` of fieldSAT.cpp: the value of a literal under the current
assignment vector. -/
def value_of (assignments : List Value) (literal : Int) : Value :=
  let assignment := assignments.getD literal.natAbs Value.UNASSIGNED
  if assignment = Value.UNASSIGNED then Value.UNASSIGNED
  else if ((literal < 0) ↔ (assignment = Value.FALSE)) then Value.TRUE
  else Value.FALSE

def SolverState.clauseAt (s : SolverState) (cid : Nat) : Clause :=
  s.arena.getD cid default

def SolverState.setClauseAt (s : SolverState) (cid : Nat) (c : Clause) : SolverState :=
  { s with arena := s.arena.set cid c }

/-- The inner `for (j ...)` scan of `propagate`: find the first position `j`
whose literal differs from both watched literals and is not FALSE. -/
def findReplacement (assignments : List Value) (w1 w2 : Int) :
    List Int → Nat → Option Nat
  | [], _ => none
  | lit :: rest, j =>
    if lit = w1 ∨ lit = w2 then findReplacement assignments w1 w2 rest (j + 1)
    else if value_of assignments lit ≠ Value.FALSE then some j
    else findReplacement assignments w1 w2 rest (j + 1)

/-- The unit-implication branch of `propagate` in fieldSAT.cpp: push the
`other` watched literal on the trail, assign its variable according to its
sign, record phase, level and reason, and count the assignment. -/
def applyUnitImp (s : SolverState) (cid : Nat) (other : Int) : SolverState :=
  let v := other.natAbs
  let val := if other > 0 then Value.TRUE else Value.FALSE
  { s with
    trail := s.trail ++ [other]
    assignments := s.assignments.set v val
    last_assignments := s.last_assignments.set v val
    decision_levels := s.decision_levels.set v ((s.trail_decisions.length : Int) - 1)
    reasons := s.reasons.set v (some cid)
    assigned_vars := s.assigned_vars + 1 }

/-- One watcher-list scan of `propagate` in fieldSAT.cpp (the loop over `i`
on `watchers[index]`), on explicit fuel.  Returns `some (false, s)` on
conflict, `some (true, s)` when the scan is complete, `none` on fuel
exhaustion. -/
def propScan : Nat → SolverState → Nat → Nat → Int → Option (Bool × SolverState)
  | 0, _, _, _, _ => none
  | fuel + 1, s, index, i, literal =>
    let wl := s.watchers.getD index []
    if i < wl.length then
      let cid := wl.getD i 0
      let c := s.clauseAt cid
      let pr :=
        if c.literals.getD c.watch1 0 = -literal then
          ((1 : Nat), c.literals.getD c.watch2 0)
        else ((2 : Nat), c.literals.getD c.watch1 0)
      if value_of s.assignments pr.2 = Value.TRUE then
        propScan fuel s index (i + 1) literal
      else
        let watch1 := c.literals.getD c.watch1 0
        let watch2 := c.literals.getD c.watch2 0
        match findReplacement s.assignments watch1 watch2 c.literals 0 with
        | some j =>
          let lit := c.literals.getD j 0
          let c2 := if pr.1 = 1 then { c with watch1 := j } else { c with watch2 := j }
          let s1 := s.setClauseAt cid c2
          let s2 := { s1 with
            watchers := s1.watchers.set (wIdx lit) (s1.watchers.getD (wIdx lit) [] ++ [cid]) }
          let wl2 := s2.watchers.getD index []
          let s3 := { s2 with
            watchers := s2.watchers.set index ((wl2.set i (wl2.getLast?.getD 0)).dropLast) }
          propScan fuel s3 index i literal
        | none =>
          if value_of s.assignments pr.2 = Value.FALSE then
            some (false, { s with conflict_clause := some cid })
          else
            propScan fuel (applyUnitImp s cid pr.2) index (i + 1) literal
    else some (true, s)

/-- The outer `while (trail_head < trail.size())` loop of `propagate`. -/
def propagateAux : Nat → Nat → SolverState → Option (Bool × SolverState)
  | 0, _, _ => none
  | ofuel + 1, pfuel, s =>
    if s.trail_head < s.trail.length then
      let literal := s.trail.getD s.trail_head 0
      let index := wIdx (-literal)
      match propScan pfuel s index 0 literal with
      | none => none
      | some (false, s1) => some (false, s1)
      | some (true, s1) =>
        propagateAux ofuel pfuel { s1 with trail_head := s1.trail_head + 1 }
    else some (true, s)

/-- `propagate` of fieldSAT.cpp on fuel. -/
def propagate (fuel : Nat) (s : SolverState) : Option (Bool × SolverState) :=
  propagateAux fuel fuel s

/-- The variable-selection loop of `decide` in fieldSAT.cpp.  `hi` mirrors
the C++ `int highest_activity` (note: an `int`, so storing an activity
truncates it), `var` mirrors the C++ `int var`, which is uninitialised
until the first update (`none` models the uninitialised state). -/
def decideLoop (s : SolverState) : Nat → Nat → Int → Option Nat → Option Nat
  | 0, _, _, var => var
  | steps + 1, i, hi, var =>
    if i < s.activity.length then
      if s.assignments.getD i Value.UNASSIGNED ≠ Value.UNASSIGNED then
        decideLoop s steps (i + 1) hi var
      else if ratLt ((hi : ℚ)) (s.activity.getD i 0) = true then
        decideLoop s steps (i + 1) (cppTrunc (s.activity.getD i 0)) (some i)
      else decideLoop s steps (i + 1) hi var
    else var

/-- `decide` of fieldSAT.cpp: select a variable, open a decision level and
assign the saved phase.  `none` models the undefined behaviour of reading
the uninitialised `var` when the loop never selected a variable. -/
def decide (s : SolverState) : Option SolverState :=
  match decideLoop s s.activity.length 1 0 none with
  | none => none
  | some var =>
    let s1 := { s with trail_decisions := s.trail_decisions ++ [s.trail.length] }
    let phase := s1.last_assignments.getD var Value.FALSE
    let literal : Int := if phase = Value.TRUE then (var : Int) else -(var : Int)
    some { s1 with
      trail := s1.trail ++ [literal]
      assignments := s1.assignments.set var phase
      decision_levels := s1.decision_levels.set var ((s1.trail_decisions.length : Int) - 1)
      assigned_vars := s1.assigned_vars + 1 }

/-- The deduplication loop at the start of `analyse` (filling `new_clause`
from the conflict clause literals and counting current-level literals). -/
def dedupLoop (dl : List Int) (d : Int) :
    List Int → List Bool → List Int → Int → (List Bool × List Int × Int)
  | [], seen, acc, count => (seen, acc, count)
  | l :: rest, seen, acc, count =>
    if seen.getD (wIdx l) false = false then
      dedupLoop dl d rest (seen.set (wIdx l) true) (acc ++ [l])
        (count + if dl.getD l.natAbs (-1) = d then 1 else 0)
    else dedupLoop dl d rest seen acc count

/-- The `for (int literal : reason_clause)` resolution loop of `analyse`. -/
def resolveLoop (dl : List Int) (d : Int) (t : Int) :
    List Int → List Bool → List Int → Int → (List Bool × List Int × Int)
  | [], seen, lc, count => (seen, lc, count)
  | l :: rest, seen, lc, count =>
    if seen.getD (wIdx l) false = false ∧ l ≠ t then
      resolveLoop dl d t rest (seen.set (wIdx l) true) (lc ++ [l])
        (count + if dl.getD l.natAbs (-1) = d then 1 else 0)
    else resolveLoop dl d t rest seen lc count

/-- `std::find(begin, end, x) - begin` on a list: index of the first
occurrence of `x`, or `none` when absent. -/
def indexFrom (x : Int) : List Int → Nat → Option Nat
  | [], _ => none
  | y :: rest, j => if y = x then some j else indexFrom x rest (j + 1)

/-- The backwards trail walk of `analyse`.  The first argument is one past
the trail position under consideration (so `n+1` visits `trail[n]`).
Returns `none` when the code dereferences an absent (null) reason pointer:
the C++ source bumps `reason_clause_ptr->activity` and copies
`reason_clause_ptr->literals` before any emptiness check, so a trail
literal selected for resolution whose reason slot is null is read through,
which is undefined behaviour. -/
def analyseWalk (trail : List Int) (reasons : List (Option Nat)) (dl : List Int) (d : Int) :
    Nat → List Clause → List Bool → List Int → Int →
    Option (List Clause × List Bool × List Int × Int)
  | 0, arena, seen, lc, count => some (arena, seen, lc, count)
  | n + 1, arena, seen, lc, count =>
    if count = 1 then some (arena, seen, lc, count)
    else
      let t := trail.getD n 0
      match indexFrom (-t) lc 0 with
      | none => analyseWalk trail reasons dl d n arena seen lc count
      | some index =>
        match reasons.getD t.natAbs none with
        | none => none
        | some rid =>
          let rc := arena.getD rid default
          let arena1 := arena.set rid { rc with activity := ratAdd rc.activity clause_activity_inc }
          if rc.literals = [] then analyseWalk trail reasons dl d n arena1 seen lc count
          else
            let r := resolveLoop dl d t rc.literals seen lc count
            let count2 := r.2.2 -
              (if dl.getD (r.2.1.getD index 0).natAbs (-1) = d then 1 else 0)
            analyseWalk trail reasons dl d n arena1 r.1 (r.2.1.eraseIdx index) count2

/-- The variable-activity bump loop after the walk in `analyse`. -/
def bumpVars : List Int → List ℚ → List ℚ
  | [], act => act
  | l :: rest, act => bumpVars rest (act.set l.natAbs (ratAdd (act.getD l.natAbs 0) activity_inc))

/-- The learned-clause activity decay loop at the end of `analyse`. -/
def decayLearned : List Nat → List Clause → List Clause
  | [], arena => arena
  | id :: rest, arena =>
    let c := arena.getD id default
    decayLearned rest (arena.set id { c with activity := ratMul c.activity clause_activity_decay })

/-- `analyse` of fieldSAT.cpp: derive the learned clause from the conflict
clause by backwards trail resolution, then update activities.  `none`
models the null-reason dereference described at `analyseWalk` (and the use
of an unset `conflict_clause` pointer). -/
def analyse (s : SolverState) : Option (List Int × SolverState) :=
  match s.conflict_clause with
  | none => none
  | some ccid =>
    let d : Int := (s.trail_decisions.length : Int) - 1
    let cc := s.clauseAt ccid
    let arena0 := s.arena.set ccid { cc with activity := ratAdd cc.activity clause_activity_inc }
    let seen0 := List.replicate (2 * s.num_vars) false
    let r0 := dedupLoop s.decision_levels d cc.literals seen0 [] 0
    match analyseWalk s.trail s.reasons s.decision_levels d s.trail.length arena0 r0.1 r0.2.1 r0.2.2 with
    | none => none
    | some (arena2, _, lc2, _) =>
      let act1 := bumpVars lc2 s.activity
      let act2 := act1.map (fun a => ratMul a activity_decay)
      let arena3 := decayLearned s.learned_clauses arena2
      some (lc2, { s with arena := arena3, activity := act2 })

/-- The first loop of `backjump`: scan the learned clause computing the UIP
literal, its index and the highest decision level among the literals not at
the current level.  Initial values mirror the C++ locals
(`uip = 0`, `uip_index = -1`, `highest_decision_level = 0`). -/
def computeUip (dl : List Int) (d : Int) :
    List Int → Nat → Int → Int → Int → (Int × Int × Int)
  | [], _, uip, uidx, hi => (uip, uidx, hi)
  | l :: rest, i, uip, uidx, hi =>
    let level := dl.getD l.natAbs (-1)
    if level ≠ d then
      computeUip dl d rest (i + 1) uip uidx (if level > hi then level else hi)
    else computeUip dl d rest (i + 1) l (i : Int) hi

/-- One iteration of the trail-undo loop shared by `backjump` and
`restart`: unassign the variable of the last trail literal and pop it. -/
def unassignLast (s : SolverState) : SolverState :=
  let literal := s.trail.getLast?.getD 0
  let v := literal.natAbs
  { s with
    assignments := s.assignments.set v Value.UNASSIGNED
    assigned_vars := s.assigned_vars - 1
    decision_levels := s.decision_levels.set v (-1)
    reasons := s.reasons.set v none
    trail := s.trail.dropLast }

/-- The trail-undo loop: pop and unassign while the trail is longer than
`stop` (C++ `for (i = trail.size()-1; i >= stop; i--)`).  The first
argument is fuel, always instantiated with the current trail length. -/
def popAux : Nat → Nat → SolverState → SolverState
  | 0, _, s => s
  | n + 1, stop, s => if stop < s.trail.length then popAux n stop (unassignLast s) else s

/-- The tail of `backjump` after the learned clause is installed: push the
UIP literal, point `trail_head` at it and assign its variable. -/
def finishBackjump (uip : Int) (hi : Int) (cid : Nat) (s : SolverState) : SolverState :=
  let s1 := { s with trail := s.trail ++ [uip] }
  let v := uip.natAbs
  let uv := if uip > 0 then Value.TRUE else Value.FALSE
  { s1 with
    trail_head := s1.trail.length - 1
    reasons := s1.reasons.set v (some cid)
    decision_levels := s1.decision_levels.set v hi
    assignments := s1.assignments.set v uv
    last_assignments := s1.last_assignments.set v uv
    assigned_vars := s1.assigned_vars + 1 }

/-- `restart` of fieldSAT.cpp: unassign every trail variable (the loop is
the same undo loop as in `backjump`, with stop index 0) and scale
`max_conflicts` by 1.5 (an `int *= double`, hence the floor).  Note that
`trail_head` is not reset. -/
def restart (s : SolverState) : SolverState :=
  let s1 := popAux s.trail.length 0 s
  { s1 with max_conflicts := cppTrunc (ratMul ((s1.max_conflicts : ℚ)) (mkRat 3 2)) }

/-- Insertion step for the activity sort in `reduce`. -/
def insertSorted (key : Nat → ℚ) (x : Nat) : List Nat → List Nat
  | [] => [x]
  | y :: rest => if ratLt (key x) (key y) = true then x :: y :: rest else y :: insertSorted key x rest

/-- The `std::sort` call of `reduce`, by ascending clause activity.  The
C++ comparator is the strict `<` on activities and `std::sort` is
unstable, so the order of equal-activity clauses is unspecified there;
this model realises one admissible order (stable insertion sort). -/
def sortByKey (key : Nat → ℚ) : List Nat → List Nat
  | [] => []
  | x :: rest => insertSorted key x (sortByKey key rest)

/-- The marking loop of `reduce` over the lowest-activity half: tombstone a
clause unless the reason slot of the variable of its literal 0 points at
it. -/
def markClauses (reasons : List (Option Nat)) : List Nat → List Clause → List Clause
  | [], arena => arena
  | id :: rest, arena =>
    let c := arena.getD id default
    if reasons.getD (c.literals.getD 0 0).natAbs none ≠ some id then
      markClauses reasons rest (arena.set id { c with toRemove := true })
    else markClauses reasons rest arena

/-- The watcher-purge loop of `reduce`: for every tombstoned learned
clause, erase it from the watcher lists of its two watched literals. -/
def purgeLoop (arena : List Clause) : List Nat → List (List Nat) → List (List Nat)
  | [], ws => ws
  | id :: rest, ws =>
    let c := arena.getD id default
    if c.toRemove then
      let l1 := c.literals.getD c.watch1 0
      let ws1 := ws.set (wIdx l1) ((ws.getD (wIdx l1) []).filter (fun x => x ≠ id))
      let l2 := c.literals.getD c.watch2 0
      let ws2 := ws1.set (wIdx l2) ((ws1.getD (wIdx l2) []).filter (fun x => x ≠ id))
      purgeLoop arena rest ws2
    else purgeLoop arena rest ws

/-- `reduce` of fieldSAT.cpp: sort the learned clauses by activity,
tombstone the unlocked lowest-activity half, purge them from the watcher
lists and drop them from the `learned_clauses` and `clauses` registries.
(The C++ `delete` of the removed objects is not modelled; tombstoned
clauses simply stay in the arena, unreferenced.) -/
def reduce (s : SolverState) : SolverState :=
  let key := fun id => (s.arena.getD id default).activity
  let sorted := sortByKey key s.learned_clauses
  let half := sorted.take (sorted.length / 2)
  let arena1 := markClauses s.reasons half s.arena
  let ws := purgeLoop arena1 sorted s.watchers
  { s with
    arena := arena1
    watchers := ws
    learned_clauses := sorted.filter (fun id => (arena1.getD id default).toRemove = false)
    clauses := s.clauses.filter (fun id => (arena1.getD id default).toRemove = false) }

/-- `backjump` of fieldSAT.cpp: compute the backjump level, undo the trail
above it, install the learned clause (UIP swapped to position 0 when the
clause has size at least 2), truncate the decision stack, assert the UIP,
and trigger `reduce`/`restart` on the conflict counters.  `none` models
the undefined behaviour of `learned_clause[uip_index]` when no literal of
the clause is at the current decision level (`uip_index` stays -1). -/
def backjump (lc : List Int) (s : SolverState) : Option SolverState :=
  let d : Int := (s.trail_decisions.length : Int) - 1
  let r := computeUip s.decision_levels d lc 0 0 (-1) 0
  let uip := r.1
  let uidx := r.2.1
  let hi := r.2.2
  let index : Int := if lc.length = 1 then 1 else hi + 1
  let stop := s.trail_decisions.getD index.toNat 0
  let s1 := popAux s.trail.length stop s
  let installed : Option (Nat × SolverState) :=
    if lc.length ≠ 1 then
      if uidx < 0 then none
      else
        let k := uidx.toNat
        let lc2 := (lc.set k (lc.getD 0 0)).set 0 (lc.getD k 0)
        let cid := s1.arena.length
        let c : Clause := { literals := lc2, watch1 := 0, watch2 := 1 }
        let s2 := { s1 with arena := s1.arena ++ [c], clauses := s1.clauses ++ [cid] }
        let s3 := { s2 with
          watchers := s2.watchers.set (wIdx (lc2.getD 0 0))
            (s2.watchers.getD (wIdx (lc2.getD 0 0)) [] ++ [cid]) }
        let s4 := { s3 with
          watchers := s3.watchers.set (wIdx (lc2.getD 1 0))
            (s3.watchers.getD (wIdx (lc2.getD 1 0)) [] ++ [cid]) }
        some (cid, { s4 with
          learned_clauses := s4.learned_clauses ++ [cid]
          trail_decisions := s4.trail_decisions.take (hi + 1).toNat })
    else
      let cid := s1.arena.length
      let c : Clause := { literals := lc, watch1 := 0, watch2 := 0 }
      let s2 := { s1 with arena := s1.arena ++ [c], clauses := s1.clauses ++ [cid] }
      let s3 := { s2 with
        watchers := s2.watchers.set (wIdx (lc.getD 0 0))
          (s2.watchers.getD (wIdx (lc.getD 0 0)) [] ++ [cid]) }
      some (cid, { s3 with
        learned_clauses := s3.learned_clauses ++ [cid]
        trail_decisions := s3.trail_decisions.take 1 })
  match installed with
  | none => none
  | some (cid, s5) =>
    let s6 := finishBackjump uip hi cid s5
    let s7 := if s6.num_conflicts % reduction_threshold = 0 then reduce s6 else s6
    some (if s7.num_conflicts ≥ s7.max_conflicts then restart s7 else s7)

/-- The else-arm of the `initialise` loop body: register the first two
literals of clause `cid` as its watchers and set its watch indices to 0
and 1. -/
def initWatch (s : SolverState) (cid : Nat) : SolverState :=
  let c := s.clauseAt cid
  let l0 := c.literals.getD 0 0
  let s1 := { s with
    watchers := s.watchers.set (wIdx l0) (s.watchers.getD (wIdx l0) [] ++ [cid]) }
  let l1 := c.literals.getD 1 0
  let s2 := { s1 with
    watchers := s1.watchers.set (wIdx l1) (s1.watchers.getD (wIdx l1) [] ++ [cid]) }
  s2.setClauseAt cid { c with watch1 := 0, watch2 := 1 }

/-- The per-clause body of the `initialise` loop: seed the trail from a
unit clause (detecting a contradiction with an earlier unit, in which case
the whole initialisation returns false, modelled as `none`) or register
the first two literals of a longer clause as its watchers. -/
def initClause (s : SolverState) (cid : Nat) : Option SolverState :=
  let c := s.clauseAt cid
  if c.literals.length = 1 then
    let literal := c.literals.getD 0 0
    let lit_value := if literal > 0 then Value.TRUE else Value.FALSE
    if s.assignments.getD literal.natAbs Value.UNASSIGNED = Value.UNASSIGNED then
      some { s with
        trail := s.trail ++ [literal]
        assignments := s.assignments.set literal.natAbs lit_value
        assigned_vars := s.assigned_vars + 1 }
    else if lit_value ≠ s.assignments.getD literal.natAbs Value.UNASSIGNED then none
    else some s
  else some (initWatch s cid)

/-- The `for (i = 0; i < clauses.size(); i++)` loop of `initialise`. -/
def initLoop : List Nat → SolverState → Option SolverState
  | [], s => some s
  | cid :: rest, s =>
    match initClause s cid with
    | none => none
    | some s1 => initLoop rest s1

/-- `initialise` of fieldSAT.cpp, applied to the parsed clause list (the
parser has already built one `Clause` object per input clause, with
deduplicated literals and temporary watch indices 0).  Returns `none` when
initialisation reports a root-level unit contradiction (C++ returns
false). -/
def initialise (nv : Nat) (cls : List (List Int)) : Option SolverState :=
  let arena := cls.map (fun c => ({ literals := c, watch1 := 0, watch2 := 0 } : Clause))
  let base : SolverState := {
    num_vars := nv
    arena := arena
    clauses := List.range arena.length
    trail := []
    trail_head := 0
    assignments := List.replicate (nv + 1) Value.UNASSIGNED
    assigned_vars := 0
    last_assignments := List.replicate (nv + 1) Value.FALSE
    watchers := List.replicate (2 * nv) []
    trail_decisions := [0]
    decision_levels := List.replicate (nv + 1) (-1)
    reasons := List.replicate (nv + 1) none
    conflict_clause := none
    activity := List.replicate (nv + 1) 1
    learned_clauses := []
    num_conflicts := 0
    max_conflicts := 100 }
  initLoop (List.range cls.length) base

/-- `sat_loop` of fieldSAT.cpp on fuel (outer iterations) with a separate
fuel for each `propagate` call. -/
def sat_loop : Nat → Nat → SolverState → Option (Bool × SolverState)
  | 0, _, _ => none
  | fuel + 1, pfuel, s =>
    match propagate pfuel s with
    | none => none
    | some (true, s1) =>
      if s1.assigned_vars = (s1.num_vars : Int) then some (true, s1)
      else
        match FieldSAT.decide s1 with
        | none => none
        | some s2 => sat_loop fuel pfuel s2
    | some (false, s1) =>
      let s2 := { s1 with num_conflicts := s1.num_conflicts + 1 }
      if (s2.trail_decisions.length : Int) - 1 = 0 then some (false, s2)
      else
        match analyse s2 with
        | none => none
        | some (lc, s3) =>
          match backjump lc s3 with
          | none => none
          | some s4 => sat_loop fuel pfuel s4

/-- The verdict printed by `main` of fieldSAT.cpp, parameterised by the
search loop so that independence from it can be stated: when `initialise`
reports a contradiction, the verdict is UNSATISFIABLE no matter what the
search loop would do (it is never invoked). -/
def mainVerdict (loop : SolverState → Bool) (nv : Nat) (cls : List (List Int)) : String :=
  match initialise nv cls with
  | none => "UNSATISFIABLE"
  | some s => if loop s then "SATISFIABLE" else "UNSATISFIABLE"

set_option maxHeartbeats 2000000 in
/-- A concrete CNF input (variable 1 constrained only by the unit clause
[1], followed by 210 ternary clauses over variables 2..51) whose solver run
reaches 105 conflicts, restarts, and then reports SATISFIABLE with variable
1 assigned FALSE, falsifying the unit clause.  The restart drops the
root-level unit fact irrecoverably: unit clauses are never entered in any
watcher list by `initialise`, `restart` unassigns every trail variable, and
`initialise` never wrote `last_assignments`, so the later decision on
variable 1 uses the default FALSE phase and no conflict is ever raised. -/
def c1DemoFormula : List (List Int) :=
  [[1],
    [-20, 34, -46],
    [42, 10, -38],
    [19, -45, -29],
    [-26, -20, 36],
    [38, -41, 18],
    [-42, -11, -30],
    [22, -38, 2],
    [50, 31, 9],
    [4, -35, 32],
    [14, 32, -31],
    [-13, 29, 19],
    [-39, -11, 29],
    [-32, 3, 15],
    [45, -28, -8],
    [30, -7, 46],
    [5, 25, 49],
    [-13, 46, -10],
    [10, -42, -45],
    [-28, -41, 15],
    [2, 42, -36],
    [10, 14, 27],
    [39, -4, 37],
    [-22, -41, -17],
    [-24, 18, 43],
    [28, -17, 45],
    [-46, -35, -36],
    [43, -31, -48],
    [34, 5, 30],
    [16, -48, -31],
    [-13, 35, -33],
    [5, 12, -33],
    [-23, 34, 9],
    [-25, 13, 3],
    [-5, 14, 3],
    [-25, -24, -51],
    [-19, 38, -43],
    [46, -48, 47],
    [-38, 24, -48],
    [29, -14, -2],
    [-17, 38, 7],
    [19, -2, -48],
    [39, -48, -18],
    [40, -22, -24],
    [-12, -47, 28],
    [-39, 33, 36],
    [9, 26, -39],
    [33, -23, -15],
    [-35, -22, -48],
    [10, -12, 27],
    [39, -7, 47],
    [-2, 34, -11],
    [-35, -11, 23],
    [25, -22, 47],
    [28, 10, 20],
    [-9, -34, 40],
    [-41, -28, -17],
    [10, -27, -7],
    [-2, 27, -33],
    [37, -35, 5],
    [48, -13, -6],
    [38, -6, -7],
    [-36, -35, -4],
    [-36, -18, 15],
    [51, 8, -14],
    [-29, 33, 6],
    [33, -31, 20],
    [-26, -8, 33],
    [48, -43, -9],
    [-13, 6, 44],
    [-20, 37, -50],
    [30, 37, 39],
    [46, -16, 38],
    [-50, -11, -49],
    [46, 22, 18],
    [-34, -44, 42],
    [-47, 16, -8],
    [46, -36, 44],
    [29, 25, -34],
    [42, 40, -23],
    [49, 19, -51],
    [-13, -39, 46],
    [-32, 6, 3],
    [-25, 49, -18],
    [-25, -15, 35],
    [-18, -48, -3],
    [-29, 20, 39],
    [-4, -31, -39],
    [33, 25, 29],
    [-4, 26, -41],
    [35, 27, 13],
    [47, -50, 23],
    [-32, -21, 14],
    [14, -38, -16],
    [47, 36, -39],
    [51, -49, 35],
    [37, -5, 38],
    [-44, -20, 43],
    [-22, 16, 24],
    [-11, -44, 46],
    [-23, -38, -12],
    [-29, -51, 28],
    [-25, 12, -37],
    [17, -21, -40],
    [16, -8, -38],
    [25, 24, 34],
    [21, 22, -28],
    [2, -8, 39],
    [6, 15, 34],
    [7, 45, -12],
    [12, -17, -41],
    [-28, 50, 33],
    [8, 13, -3],
    [26, 48, 4],
    [6, -40, 24],
    [-9, 18, -24],
    [15, -7, -26],
    [-40, 38, 20],
    [-30, 18, 4],
    [-39, -28, 9],
    [-50, 23, 35],
    [-18, 28, -46],
    [7, 34, 12],
    [51, 41, 45],
    [-32, -41, -51],
    [28, 24, 14],
    [-20, -14, 48],
    [-36, -21, 18],
    [7, 21, 4],
    [-25, 33, 40],
    [-51, -33, 13],
    [30, 42, 16],
    [-21, 12, -5],
    [6, 20, 33],
    [45, -47, 15],
    [51, -7, 32],
    [39, -18, -46],
    [-36, 38, -7],
    [-5, 26, 12],
    [12, 14, 32],
    [-36, 27, 41],
    [41, -10, -26],
    [35, -32, -9],
    [-40, -21, 28],
    [6, 12, -24],
    [-45, -34, 47],
    [12, 35, 47],
    [-42, 22, 14],
    [-12, -23, -43],
    [5, 27, 41],
    [7, 47, 50],
    [-35, -16, 48],
    [-7, -34, 42],
    [-37, 32, -14],
    [-32, 29, 16],
    [9, 24, -28],
    [-18, -24, 44],
    [-2, -40, -20],
    [20, -30, 31],
    [42, -37, -36],
    [14, -20, 42],
    [30, 13, 12],
    [-34, -28, -43],
    [-27, 42, 23],
    [25, 50, -14],
    [9, 39, -48],
    [14, 7, 18],
    [-51, 4, -23],
    [-50, -32, 25],
    [48, 35, -18],
    [24, -40, 20],
    [-46, 2, -42],
    [-23, -37, -20],
    [-20, 7, 44],
    [33, -37, -28],
    [5, -23, 27],
    [-37, -24, -47],
    [-6, -14, -28],
    [-41, 15, -29],
    [19, -20, 23],
    [9, -4, 44],
    [17, 44, -27],
    [-35, -19, -21],
    [-14, 45, -50],
    [24, -49, -44],
    [20, -47, -23],
    [-38, 43, -36],
    [-6, -43, -18],
    [37, 29, 23],
    [9, -42, -28],
    [8, 48, -7],
    [32, 35, -49],
    [-15, -48, 44],
    [32, 47, -25],
    [46, 24, -4],
    [22, -37, -6],
    [26, 3, -5],
    [-31, 8, -12],
    [-49, 17, -42],
    [-37, -11, -47],
    [-25, 26, 51],
    [47, -50, -9],
    [35, 14, 7],
    [-36, -29, -49],
    [15, 31, -32],
    [-17, -12, 51],
    [17, 44, -16],
    [9, -22, 48],
    [-20, 11, 33],
    [-33, -34, -13],
    [-47, -15, -40]]

/-- The solver run on `c1DemoFormula` (fuel amply above the roughly 1000
loop iterations the run needs). -/
def c1Run : Option (Bool × SolverState) :=
  match initialise 51 c1DemoFormula with
  | none => none
  | some s => sat_loop 3000 3000 s

/-- First component: the verdict the run reports.  Second component: does
the final assignment falsify some nonempty original clause of the input? -/
def c1Result : Bool × Bool :=
  match c1Run with
  | some (b, sf) =>
    (b, c1DemoFormula.any (fun c =>
      !c.isEmpty && c.all (fun l => value_of sf.assignments l == Value.FALSE)))
  | none => (false, false)

end FieldSAT

namespace DPLL

/-- The three-valued assignment state, `enum Value` of dpll.cpp. -/
inductive Value where
  | TRUE
  | FALSE
  | UNASSIGNED
deriving DecidableEq, Repr

/-- The clause record of dpll.cpp: literal list and the two watch indices. -/
structure Clause where
  literals : List Int
  watch1 : Nat
  watch2 : Nat
deriving DecidableEq, Repr

instance : Inhabited Clause := ⟨{ literals := [], watch1 := 0, watch2 := 0 }⟩

/-- The module-level mutable state of dpll.cpp that `propagate` touches.
The `clauses` vector owns the clause objects; watcher entries are indices
into it (the C++ code stores `&clauses[i]` pointers). -/
structure DState where
  num_vars : Nat
  clauses : List Clause
  trail : List Int
  trail_head : Nat
  assignments : List Value
  assigned_vars : Int
  watchers : List (List Nat)
deriving DecidableEq, Repr

/-- `get_watcher_index` of dpll.cpp (the same bijection as in
fieldSAT.cpp). -/
def get_watcher_index (literal : Int) : Int :=
  if literal > 0 then 2 * literal - 1 else 2 * (-literal) - 2

/-- The watcher index clamped to `Nat` for use as a list index. -/
def wIdx (literal : Int) : Nat := (get_watcher_index literal).toNat

/-- `value_of` of dpll.cpp (same code as in fieldSAT.cpp). -/
def value_of (assignments : List Value) (literal : Int) : Value :=
  let assignment := assignments.getD literal.natAbs Value.UNASSIGNED
  if assignment = Value.UNASSIGNED then Value.UNASSIGNED
  else if ((literal < 0) ↔ (assignment = Value.FALSE)) then Value.TRUE
  else Value.FALSE

/-- The inner replacement-watch scan of `propagate` in dpll.cpp (identical
to the fieldSAT.cpp one). -/
def findReplacement (assignments : List Value) (w1 w2 : Int) :
    List Int → Nat → Option Nat
  | [], _ => none
  | lit :: rest, j =>
    if lit = w1 ∨ lit = w2 then findReplacement assignments w1 w2 rest (j + 1)
    else if value_of assignments lit ≠ Value.FALSE then some j
    else findReplacement assignments w1 w2 rest (j + 1)

/-- One watcher-list scan of `propagate` in dpll.cpp, on explicit fuel.
Two deliberate differences from the fieldSAT.cpp scan are transcribed from
the source: the satisfied-watch branch executes `continue` WITHOUT
advancing `i` (dpll.cpp line 96), and the unit-implication branch assigns
`assignments[abs(literal)]` — the variable of the literal being
propagated, which is already assigned — rather than the variable of
`other_watch` (dpll.cpp lines 129-131). -/
def dpllScan : Nat → DState → Nat → Nat → Int → Option (Bool × DState)
  | 0, _, _, _, _ => none
  | fuel + 1, s, index, i, literal =>
    let wl := s.watchers.getD index []
    if i < wl.length then
      let cid := wl.getD i 0
      let c := s.clauses.getD cid default
      let pr :=
        if c.literals.getD c.watch1 0 = -literal then
          ((1 : Nat), c.literals.getD c.watch2 0)
        else ((2 : Nat), c.literals.getD c.watch1 0)
      if value_of s.assignments pr.2 = Value.TRUE then
        dpllScan fuel s index i literal
      else
        let watch1 := c.literals.getD c.watch1 0
        let watch2 := c.literals.getD c.watch2 0
        match findReplacement s.assignments watch1 watch2 c.literals 0 with
        | some j =>
          let c2 := if pr.1 = 1 then { c with watch1 := j } else { c with watch2 := j }
          let lit := c.literals.getD j 0
          let s1 := { s with clauses := s.clauses.set cid c2 }
          let s2 := { s1 with
            watchers := s1.watchers.set (wIdx lit) (s1.watchers.getD (wIdx lit) [] ++ [cid]) }
          let wl2 := s2.watchers.getD index []
          let s3 := { s2 with
            watchers := s2.watchers.set index ((wl2.set i (wl2.getLast?.getD 0)).dropLast) }
          dpllScan fuel s3 index i literal
        | none =>
          if value_of s.assignments pr.2 = Value.FALSE then
            some (false, s)
          else
            dpllScan fuel
              { s with
                trail := s.trail ++ [pr.2]
                assignments := s.assignments.set literal.natAbs
                  (if literal > 0 then Value.TRUE else Value.FALSE)
                assigned_vars := s.assigned_vars + 1 }
              index (i + 1) literal
    else some (true, s)

/-- The outer `while (trail_head < trail.size())` loop of `propagate` in
dpll.cpp. -/
def dpllPropagateAux : Nat → Nat → DState → Option (Bool × DState)
  | 0, _, _ => none
  | ofuel + 1, pfuel, s =>
    if s.trail_head < s.trail.length then
      let literal := s.trail.getD s.trail_head 0
      let index := wIdx (-literal)
      match dpllScan pfuel s index 0 literal with
      | none => none
      | some (false, s1) => some (false, s1)
      | some (true, s1) =>
        dpllPropagateAux ofuel pfuel { s1 with trail_head := s1.trail_head + 1 }
    else some (true, s)

/-- `propagate` of dpll.cpp on fuel. -/
def propagate (fuel : Nat) (s : DState) : Option (Bool × DState) :=
  dpllPropagateAux fuel fuel s

end DPLL

open FieldSAT

/-- A concrete solver state of the shape `backjump` leaves behind just
before it calls `restart`: two trail entries, `trail_head` pointing at the
last of them. -/
def c2State : SolverState :=
  { num_vars := 2
    arena := [{ literals := [1, 2], watch1 := 0, watch2 := 1 }]
    clauses := [0]
    trail := [1, -2]
    trail_head := 1
    assignments := [Value.UNASSIGNED, Value.TRUE, Value.FALSE]
    assigned_vars := 2
    last_assignments := [Value.FALSE, Value.TRUE, Value.FALSE]
    watchers := [[], [0], [], [0]]
    trail_decisions := [0]
    decision_levels := [-1, 0, 0]
    reasons := [none, none, none]
    conflict_clause := none
    activity := [1, 1, 1]
    learned_clauses := []
    num_conflicts := 100
    max_conflicts := 100 }

/-- A concrete state on which `decide` is invoked with two unassigned
variables: variable 1 has activity 1.9, variable 2 has activity 1.5. -/
def c4State : SolverState :=
  { num_vars := 2
    arena := []
    clauses := []
    trail := []
    trail_head := 0
    assignments := [Value.UNASSIGNED, Value.UNASSIGNED, Value.UNASSIGNED]
    assigned_vars := 0
    last_assignments := [Value.FALSE, Value.FALSE, Value.FALSE]
    watchers := [[], [], [], []]
    trail_decisions := [0]
    decision_levels := [-1, -1, -1]
    reasons := [none, none, none]
    conflict_clause := none
    activity := [1, mkRat 19 10, mkRat 3 2]
    learned_clauses := []
    num_conflicts := 0
    max_conflicts := 100 }

/-- A concrete state in which the learned clause with arena index 1 is the
current reason of variable 3 — via its literal at position 1, as
`propagate` installs reasons without moving the implied literal to
position 0 — while the variable of its position-0 literal (variable 2) is
a decision with no reason. -/
def c3State : SolverState :=
  { num_vars := 3
    arena := [
      { literals := [-2, -3], watch1 := 0, watch2 := 1, activity := 0 },
      { literals := [2, 3], watch1 := 0, watch2 := 1, activity := mkRat 1 10 },
      { literals := [-2, -3], watch1 := 0, watch2 := 1, activity := mkRat 1 2 }]
    clauses := [0, 1, 2]
    trail := [-2, 3]
    trail_head := 2
    assignments := [Value.UNASSIGNED, Value.UNASSIGNED, Value.FALSE, Value.TRUE]
    assigned_vars := 2
    last_assignments := [Value.FALSE, Value.FALSE, Value.FALSE, Value.TRUE]
    watchers := [[], [], [0, 2], [1], [0, 2], [1]]
    trail_decisions := [0, 0]
    decision_levels := [-1, -1, 1, 1]
    reasons := [none, none, none, some 1]
    conflict_clause := none
    activity := [1, 1, 1, 1]
    learned_clauses := [1, 2]
    num_conflicts := 3000
    max_conflicts := 5000 }

/-- A concrete state at `analyse` entry whose conflict clause contains no
literal of the current decision level (level 1): its literals are the
negations of the root unit fact (variable 1, decision level -1, reason
absent) and of a literal propagated at level 0 (variable 3).  The
`current_level_count == 1` early exit therefore never fires, and the
backward walk reaches trail position 0, whose literal it selects for
resolution — and variable 1 has no reason clause. -/
def c5State : SolverState :=
  { num_vars := 3
    arena := [
      { literals := [-1, -3], watch1 := 0, watch2 := 1 },
      { literals := [3, -1], watch1 := 0, watch2 := 1 }]
    clauses := [0, 1]
    trail := [1, 3, 2]
    trail_head := 3
    assignments := [Value.UNASSIGNED, Value.TRUE, Value.TRUE, Value.TRUE]
    assigned_vars := 3
    last_assignments := [Value.FALSE, Value.TRUE, Value.TRUE, Value.TRUE]
    watchers := [[0, 1], [], [], [], [0], [1]]
    trail_decisions := [0, 2]
    decision_levels := [-1, -1, 1, 0]
    reasons := [none, none, none, some 1]
    conflict_clause := some 0
    activity := [1, 1, 1, 1]
    learned_clauses := []
    num_conflicts := 1
    max_conflicts := 100 }

/-- A concrete dpll.cpp solver state: the watcher list of literal 1
contains the clause (1 v 2), variable 1 has just been assigned FALSE (the
trail entry -1 is queued for propagation), and variable 2 is TRUE, so the
clause is satisfied by its other watched literal. -/
def c6State : DPLL.DState :=
  { num_vars := 2
    clauses := [{ literals := [1, 2], watch1 := 0, watch2 := 1 }]
    trail := [-1]
    trail_head := 0
    assignments := [DPLL.Value.UNASSIGNED, DPLL.Value.FALSE, DPLL.Value.TRUE]
    assigned_vars := 2
    watchers := [[], [0], [], [0]] }

/-- The same situation as `c6State` for the fieldSAT.cpp propagator. -/
def c6fState : SolverState :=
  { num_vars := 2
    arena := [{ literals := [1, 2], watch1 := 0, watch2 := 1 }]
    clauses := [0]
    trail := [-1]
    trail_head := 0
    assignments := [Value.UNASSIGNED, Value.FALSE, Value.TRUE]
    assigned_vars := 2
    last_assignments := [Value.FALSE, Value.FALSE, Value.TRUE]
    watchers := [[], [0], [], [0]]
    trail_decisions := [0]
    decision_levels := [-1, 0, 0]
    reasons := [none, none, none]
    conflict_clause := none
    activity := [1, 1, 1]
    learned_clauses := []
    num_conflicts := 0
    max_conflicts := 100 }

/-- A solver state of precisely the shape `restart` leaves behind on an
input whose first clause is the unit clause (1): the trail is empty and
every variable unassigned, but `trail_head` still holds its pre-restart
value 2, the unit clause (arena slot 0) appears in no watcher list, and
`last_assignments` of variable 1 is FALSE because `initialise` never
recorded the phase of the root-level unit fact.  (`c1DemoFormula` drives
the solver into exactly this situation after its 100th conflict.) -/
def c1TailState : SolverState :=
  { num_vars := 3
    arena := [
      { literals := [1], watch1 := 0, watch2 := 0 },
      { literals := [1, 2], watch1 := 0, watch2 := 1 }]
    clauses := [0, 1]
    trail := []
    trail_head := 2
    assignments := [Value.UNASSIGNED, Value.UNASSIGNED, Value.UNASSIGNED, Value.UNASSIGNED]
    assigned_vars := 0
    last_assignments := [Value.FALSE, Value.FALSE, Value.FALSE, Value.FALSE]
    watchers := [[], [1], [], [1], [], []]
    trail_decisions := [0]
    decision_levels := [-1, -1, -1, -1]
    reasons := [none, none, none, none]
    conflict_clause := some 1
    activity := [1, 1, 1, 1]
    learned_clauses := []
    num_conflicts := 100
    max_conflicts := 150 }

/-- The state produced by `initialise 2 [[1], [1, 2]]`, used to witness
the hypotheses of the C1 theorem at a concrete input. -/
def c1WitnessState : SolverState :=
  { num_vars := 2
    arena := [
      { literals := [1], watch1 := 0, watch2 := 0 },
      { literals := [1, 2], watch1 := 0, watch2 := 1 }]
    clauses := [0, 1]
    trail := [1]
    trail_head := 0
    assignments := [Value.UNASSIGNED, Value.TRUE, Value.UNASSIGNED]
    assigned_vars := 1
    last_assignments := [Value.FALSE, Value.FALSE, Value.FALSE]
    watchers := [[], [1], [], [1]]
    trail_decisions := [0]
    decision_levels := [-1, -1, -1]
    reasons := [none, none, none]
    conflict_clause := none
    activity := [1, 1, 1]
    learned_clauses := []
    num_conflicts := 0
    max_conflicts := 100 }

/-- A concrete solver state in mid-propagation of the literal 1: the
watcher list of index `wIdx (-1) = 0` holds clause 0 = [-1, 2], whose other
watched literal 2 is unassigned, so the scan performs a unit implication. -/
def c7State : SolverState :=
  { num_vars := 2
    arena := [{ literals := [-1, 2], watch1 := 0, watch2 := 1 }]
    clauses := [0]
    trail := [1]
    trail_head := 0
    assignments := [Value.UNASSIGNED, Value.TRUE, Value.UNASSIGNED]
    assigned_vars := 1
    last_assignments := [Value.UNASSIGNED, Value.TRUE, Value.UNASSIGNED]
    watchers := [[0], [], [], []]
    trail_decisions := [0]
    decision_levels := [-1, 0, -1]
    reasons := [none, none, none]
    conflict_clause := none
    activity := [0, 0, 0]
    learned_clauses := []
    num_conflicts := 0
    max_conflicts := 100 }

/-- A concrete solver state at `backjump` entry: trail [1, 2, 3] with
variable 1 decided at level 1, variable 2 decided at level 2 and variable 3
implied at level 2 by clause 0; the learned clause [-3, -1] has its UIP -3
at the current level 2 and its other literal at level 1, so the backjump
level is 1. -/
def c8State : SolverState :=
  { num_vars := 3
    arena := [{ literals := [3, -2], watch1 := 0, watch2 := 1 }]
    clauses := [0]
    trail := [1, 2, 3]
    trail_head := 3
    assignments := [Value.UNASSIGNED, Value.TRUE, Value.TRUE, Value.TRUE]
    assigned_vars := 3
    last_assignments := [Value.UNASSIGNED, Value.TRUE, Value.TRUE, Value.TRUE]
    watchers := [[], [], [], [], [0], [0]]
    trail_decisions := [0, 0, 1]
    decision_levels := [-1, 1, 2, 2]
    reasons := [none, none, none, some 0]
    conflict_clause := none
    activity := [0, 0, 0, 0]
    learned_clauses := []
    num_conflicts := 5
    max_conflicts := 100 }

/-- The arithmetic helper `ratAdd` is exactly addition on `ℚ`. -/
theorem ratAdd_eq (a b : ℚ) : ratAdd a b = a + b := by
  conv_rhs => rw [← Rat.mkRat_self a, ← Rat.mkRat_self b]
  rw [Rat.mkRat_add_mkRat a.num b.num a.den_nz b.den_nz, ratAdd]

/-- The arithmetic helper `ratMul` is exactly multiplication on `ℚ`. -/
theorem ratMul_eq (a b : ℚ) : ratMul a b = a * b := by
  conv_rhs => rw [← Rat.mkRat_self a, ← Rat.mkRat_self b]
  rw [Rat.mkRat_mul_mkRat, ratMul]

/-- The comparison helper `ratLt` decides `<` on `ℚ`. -/
theorem ratLt_iff (a b : ℚ) : ratLt a b = true ↔ a < b := by
  rw [ratLt, decide_eq_true_eq, Rat.lt_def]

/-- `unassignLast` never touches the propagation head. -/
theorem unassignLast_trail_head (s : SolverState) :
    (unassignLast s).trail_head = s.trail_head := rfl

/-- The trail-undo loop never touches the propagation head. -/
theorem popAux_trail_head :
    ∀ (n stop : Nat) (s : SolverState), (popAux n stop s).trail_head = s.trail_head := by
  intro n
  induction n with
  | zero => intro stop s; rfl
  | succ n ih =>
    intro stop s
    rw [popAux]
    by_cases h : stop < s.trail.length
    · rw [if_pos h, ih, unassignLast_trail_head]
    · rw [if_neg h]

/-- Undoing one trail entry shortens the trail by one. -/
theorem unassignLast_trail (s : SolverState) :
    (unassignLast s).trail = s.trail.dropLast := rfl

/-- Run with the trail length as fuel and stop index 0, the undo loop
(the body of `restart`) empties the trail. -/
theorem popAux_trail_nil :
    ∀ (n : Nat) (s : SolverState), s.trail.length ≤ n → (popAux n 0 s).trail = [] := by
  intro n
  induction n with
  | zero =>
    intro s h
    rw [popAux]
    exact List.eq_nil_of_length_eq_zero (Nat.le_zero.mp h)
  | succ n ih =>
    intro s h
    rw [popAux]
    by_cases h0 : 0 < s.trail.length
    · rw [if_pos h0]
      apply ih
      rw [unassignLast_trail, List.length_dropLast]
      omega
    · rw [if_neg h0]
      exact List.eq_nil_of_length_eq_zero (by omega)

/-- C2: FALSIFIED BY THE CODE (code bug).  `restart` empties the trail but
never resets `trail_head`, so immediately after `restart` runs on any
state with at least two trail entries, `trail_head > len(trail)`,
violating invariant I5.  The first two conjuncts are the general facts
(for every state, `restart` leaves the trail empty and `trail_head`
untouched); the last conjunct exhibits the violated inequality on the
concrete state `c2State` of the exact shape `backjump` produces before
invoking `restart`. -/
theorem claim_C2_restart_stale_trail_head :
    (∀ s : SolverState, (restart s).trail = [] ∧ (restart s).trail_head = s.trail_head) ∧
    ¬ ((restart c2State).trail_head ≤ (restart c2State).trail.length) := by
  constructor
  · intro s
    constructor
    · show (popAux s.trail.length 0 s).trail = []
      exact popAux_trail_nil s.trail.length s (Nat.le_refl _)
    · show (popAux s.trail.length 0 s).trail_head = s.trail_head
      exact popAux_trail_head s.trail.length 0 s
  · decide

/-- C4: FALSIFIED BY THE CODE (code bug).  The C++ running maximum
`highest_activity` is an `int`, so storing activity 1.9 truncates it to 1;
the later test `1.5 > 1` then succeeds and variable 2 steals the
selection although unassigned variable 1 has the strictly greater
activity.  On `c4State`, `decide` opens a new level and assigns variable 2
its saved phase FALSE (trail literal -2) — the polarity and level parts of
the claim behave as described, but the selected variable is not the
activity maximum. -/
theorem claim_C4_decide_truncates_activity :
    ((FieldSAT.decide c4State).map (fun s => s.trail) = some [-2]) ∧
    ((FieldSAT.decide c4State).map (fun s => s.trail_decisions) = some [0, 0]) ∧
    ((FieldSAT.decide c4State).map (fun s => s.assignments.getD 2 Value.UNASSIGNED)
      = some Value.FALSE) ∧
    c4State.assignments.getD 1 Value.UNASSIGNED = Value.UNASSIGNED ∧
    ratLt (c4State.activity.getD 2 0) (c4State.activity.getD 1 0) = true := by
  refine ⟨rfl, rfl, rfl, rfl, ?_⟩
  decide

/-- C3: FALSIFIED BY THE CODE (code bug).  On `c3State`, `reduce` deletes
the learned clause with arena index 1 from the learned-clause registry
(and the clause store) even though it is, at that moment, variable 3's
reason: the lock test inspects only `reason[|literals[0]|]` — here
variable 2, whose reason slot is empty because variable 2 is a decision —
while the literal actually justified by the clause, literal 3, sits at
position 1.  The conjuncts state: clause 1 is variable 3's reason when
`reduce` runs and the justified literal is at position 1 and not at
position 0; after `reduce`, clause 1 has been deleted while variable 3's
reason slot still points at it. -/
theorem claim_C3_reduce_deletes_live_reason :
    c3State.reasons.getD 3 none = some 1 ∧
    (c3State.clauseAt 1).literals.getD 1 0 = 3 ∧
    c3State.trail = [-2, 3] ∧
    (c3State.clauseAt 1).literals.getD 0 0 = 2 ∧
    c3State.reasons.getD 2 none = none ∧
    (reduce c3State).learned_clauses = [2] ∧
    (reduce c3State).clauses = [0, 2] ∧
    (reduce c3State).reasons.getD 3 none = some 1 := by
  decide

/-- C5: FALSIFIED BY THE CODE (code bug).  In `analyse`, the C++ source
executes `reason_clause_ptr->activity += clause_activity_inc` and copies
`reason_clause_ptr->literals` BEFORE its emptiness check, so when the
trail literal selected for resolution has no reason clause (its reason
slot is a null pointer, as for every decision and root-level unit fact)
the code reads through the null pointer instead of skipping — undefined
behaviour, modelled by `analyse` returning `none`.  On `c5State` the walk
selects the root unit literal at trail position 0, whose reason slot is
empty, and `analyse` reaches the dereference. -/
theorem claim_C5_analyse_null_reason_deref :
    c5State.reasons.getD 1 none = none ∧
    c5State.trail.getD 0 0 = 1 ∧
    analyse c5State = none := by
  decide

/-- The dpll.cpp watcher scan loops forever on `c6State`: the
satisfied-watch branch (`value_of(other_watch) == TRUE`) executes
`continue` without advancing `i`, so the same clause is examined again in
an identical state. -/
theorem dpllScan_self_loop :
    ∀ fuel : Nat, DPLL.dpllScan fuel c6State 1 0 (-1) = none := by
  intro fuel
  induction fuel with
  | zero => rfl
  | succ n ih => rw [DPLL.dpllScan]; exact ih

/-- C6: FALSIFIED BY THE CODE (code bug) for the dpll.cpp variant.  On
`c6State`, dpll.cpp's `propagate` never terminates — for every amount of
fuel the run is still unfinished — because its satisfied-watch branch
forgets `i++`.  The fieldSAT.cpp variant advances `i` there, and on the
identical situation `c6fState` its `propagate` returns true (fixpoint
reached). -/
theorem claim_C6_dpll_propagate_diverges :
    (∀ fuel : Nat, DPLL.propagate fuel c6State = none) ∧
    (FieldSAT.propagate 10 c6fState).map Prod.fst = some true := by
  constructor
  · intro fuel
    match fuel with
    | 0 => rfl
    | n + 1 =>
      show DPLL.dpllPropagateAux (n + 1) (n + 1) c6State = none
      rw [DPLL.dpllPropagateAux]
      have h := dpllScan_self_loop (n + 1)
      simp only [c6State] at h ⊢
      norm_num [h, show DPLL.wIdx 1 = 1 from rfl]
  · rfl

/-- C10: CONFIRMED.  `value_of` maps a literal's negation to the opposite
truth value and preserves unassignedness: for every nonzero literal l and
assignment vector, `value_of (-l)` is TRUE iff `value_of l` is FALSE,
FALSE iff it is TRUE, and UNASSIGNED iff it is UNASSIGNED. -/
theorem claim_C10_value_of_negation (a : List Value) (l : Int) (h : l ≠ 0) :
    (value_of a (-l) = Value.TRUE ↔ value_of a l = Value.FALSE) ∧
    (value_of a (-l) = Value.FALSE ↔ value_of a l = Value.TRUE) ∧
    (value_of a (-l) = Value.UNASSIGNED ↔ value_of a l = Value.UNASSIGNED) := by
  unfold value_of
  simp only [Int.natAbs_neg]
  by_cases hl : l < 0
  · have h2 : ¬ (-l < 0) := by omega
    cases a.getD l.natAbs Value.UNASSIGNED <;> simp [hl, h2]
  · have h2 : -l < 0 := by omega
    cases a.getD l.natAbs Value.UNASSIGNED <;> simp [hl, h2]

/-- Positions updated by `List.set` at a different index keep their
value. -/
theorem getD_set_ne {α : Type} (l : List α) (i j : Nat) (a d : α) (h : i ≠ j) :
    (l.set i a).getD j d = l.getD j d := by
  simp [List.getD, List.getElem?_set_ne h]

/-- An element of a watcher structure extended by pushing `cid` onto the
list at index `idx` (the `watchers[...].push_back(...)` idiom) is either an
element of one of the original lists or `cid` itself. -/
theorem mem_watchers_extend (ws : List (List Nat)) (idx cid : Nat) (w : List Nat) (c : Nat)
    (hw : w ∈ ws.set idx (ws.getD idx [] ++ [cid])) (hc : c ∈ w) :
    (∃ w0 ∈ ws, c ∈ w0) ∨ c = cid := by
  rcases List.mem_or_eq_of_mem_set hw with h | h
  · exact Or.inl ⟨w, h, hc⟩
  · subst h
    rcases List.mem_append.mp hc with h | h
    · by_cases hlt : idx < ws.length
      · refine Or.inl ⟨ws.getD idx [], ?_, h⟩
        rw [List.getD_eq_getElem ws [] hlt]
        exact ws.getElem_mem hlt
      · rw [List.getD_eq_default _ _ (by omega)] at h
        exact absurd h (List.not_mem_nil c)
    · exact Or.inr (List.mem_singleton.mp h)

/-- `setClauseAt` with a clause carrying the same literal list preserves
the literal list of every arena slot. -/
theorem clauseAt_setClauseAt_literals (s : SolverState) (cid : Nat) (cl : Clause)
    (hlit : cl.literals = (s.clauseAt cid).literals) (c : Nat) :
    ((s.setClauseAt cid cl).clauseAt c).literals = (s.clauseAt c).literals := by
  unfold SolverState.setClauseAt SolverState.clauseAt
  by_cases hc : cid = c
  · subst hc
    by_cases hlt : cid < s.arena.length
    · show ((s.arena.set cid cl).getD cid default).literals = (s.arena.getD cid default).literals
      have h2 : (s.arena.set cid cl).getD cid default = cl := by
        simp [List.getD, List.getElem?_set_self hlt]
      rw [h2, hlit]
      rfl
    · rw [List.set_eq_of_length_le (by omega)]
  · rw [getD_set_ne _ _ _ _ _ hc]

/-- `initWatch` changes only watch indices in the arena: the literal list
of every arena slot is preserved. -/
theorem initWatch_clauseAt_literals (s : SolverState) (cid c0 : Nat) :
    ((initWatch s cid).clauseAt c0).literals = (s.clauseAt c0).literals := by
  simp only [initWatch]
  refine clauseAt_setClauseAt_literals _ cid _ ?_ c0
  rfl

/-- Every clause index in a watcher list of `initWatch s cid` was already
in a watcher list of `s`, or is `cid` itself. -/
theorem initWatch_watchers_mem (s : SolverState) (cid : Nat) (w : List Nat) (c : Nat)
    (hw : w ∈ (initWatch s cid).watchers) (hc : c ∈ w) :
    (∃ w0 ∈ s.watchers, c ∈ w0) ∨ c = cid := by
  unfold initWatch at hw
  rcases mem_watchers_extend _ _ _ _ _ hw hc with ⟨w0, hw0, hcw0⟩ | h
  · rcases mem_watchers_extend _ _ _ _ _ hw0 hcw0 with ⟨w1, hw1, hcw1⟩ | h
    · exact Or.inl ⟨w1, hw1, hcw1⟩
    · exact Or.inr h
  · exact Or.inr h

/-- The invariant of the `initialise` loop body: watcher lists only ever
hold clauses whose literal list does not have length 1 (unit clauses are
seeded onto the trail instead and are never watched), and
`last_assignments` is never written. -/
theorem initClause_inv (s : SolverState) (cid : Nat) (s1 : SolverState)
    (h : initClause s cid = some s1)
    (hw : ∀ w ∈ s.watchers, ∀ c ∈ w, (s.clauseAt c).literals.length ≠ 1) :
    (∀ w ∈ s1.watchers, ∀ c ∈ w, (s1.clauseAt c).literals.length ≠ 1) ∧
    s1.last_assignments = s.last_assignments := by
  simp only [initClause] at h
  by_cases h1 : (s.clauseAt cid).literals.length = 1
  · rw [if_pos h1] at h
    by_cases h2 : s.assignments.getD
        ((s.clauseAt cid).literals.getD 0 0).natAbs Value.UNASSIGNED = Value.UNASSIGNED
    · rw [if_pos h2] at h
      injection h with h
      subst h
      exact ⟨fun w hwm c hc => hw w hwm c hc, rfl⟩
    · rw [if_neg h2] at h
      by_cases h3 : (if (s.clauseAt cid).literals.getD 0 0 > 0 then Value.TRUE else Value.FALSE)
          ≠ s.assignments.getD ((s.clauseAt cid).literals.getD 0 0).natAbs Value.UNASSIGNED
      · rw [if_pos h3] at h
        exact absurd h (by simp)
      · rw [if_neg h3] at h
        injection h with h
        subst h
        exact ⟨hw, rfl⟩
  · rw [if_neg h1] at h
    injection h with h
    subst h
    refine ⟨?_, rfl⟩
    intro w hwm c hc
    rw [initWatch_clauseAt_literals]
    rcases initWatch_watchers_mem s cid w c hwm hc with ⟨w0, hw0, hcw0⟩ | rfl
    · exact hw w0 hw0 c hcw0
    · exact h1

/-- The watcher invariant and the untouchedness of `last_assignments`
extend from the loop body to the whole `initialise` loop. -/
theorem initLoop_inv :
    ∀ (ids : List Nat) (s s1 : SolverState),
    initLoop ids s = some s1 →
    (∀ w ∈ s.watchers, ∀ c ∈ w, (s.clauseAt c).literals.length ≠ 1) →
    (∀ w ∈ s1.watchers, ∀ c ∈ w, (s1.clauseAt c).literals.length ≠ 1) ∧
    s1.last_assignments = s.last_assignments := by
  intro ids
  induction ids with
  | nil =>
    intro s s1 h hw
    injection h with h
    subst h
    exact ⟨hw, rfl⟩
  | cons id rest ih =>
    intro s s1 h hw
    rw [initLoop] at h
    cases hic : initClause s id with
    | none => rw [hic] at h; exact absurd h (by simp)
    | some s2 =>
      rw [hic] at h
      obtain ⟨hw2, hl2⟩ := initClause_inv s id s2 hic hw
      obtain ⟨hw3, hl3⟩ := ih s2 s1 h hw2
      exact ⟨hw3, hl3.trans hl2⟩

/-- `initialise` never registers a unit clause in any watcher list (unit
clauses only seed the trail), and it leaves the phase-saving array at its
all-FALSE initial value. -/
theorem initialise_no_unit_watched (nv : Nat) (cls : List (List Int)) (s : SolverState)
    (h : initialise nv cls = some s) :
    (∀ w ∈ s.watchers, ∀ c ∈ w, (s.clauseAt c).literals.length ≠ 1) ∧
    s.last_assignments = List.replicate (nv + 1) Value.FALSE := by
  simp only [initialise] at h
  have hbase : ∀ w ∈ List.replicate (2 * nv) ([] : List Nat), ∀ c ∈ w, True := fun _ _ _ _ => trivial
  obtain ⟨hw, hl⟩ := initLoop_inv _ _ _ h (by
    intro w hwm c hc
    have hwnil := List.eq_of_mem_replicate hwm
    subst hwnil
    exact absurd hc (List.not_mem_nil c))
  exact ⟨hw, hl.trans rfl⟩

/-- C1: FALSIFIED BY THE CODE (code bug).  Conjuncts 1-2 are the general
mechanism: `initialise` never watches a unit clause and never records the
phase of a root unit fact, and `restart` empties the trail without
resetting `trail_head`.  Hence after a restart a root unit fact is gone
for good: nothing watches its clause, its saved phase is the default
FALSE, and the stale `trail_head` additionally suppresses propagation of
the first decisions.  Conjuncts 3-7 run `sat_loop` on `c1TailState`, a
state of exactly that post-restart shape: the solver reports SAT (true)
while the final assignment falsifies the original unit clause (1) held in
arena slot 0 — `value_of` of its literal is FALSE. -/
theorem claim_C1_sat_trail_violates_unit :
    (∀ (nv : Nat) (cls : List (List Int)) (s : SolverState),
      initialise nv cls = some s →
      (∀ w ∈ s.watchers, ∀ c ∈ w, (s.clauseAt c).literals.length ≠ 1) ∧
      s.last_assignments = List.replicate (nv + 1) Value.FALSE) ∧
    (∀ s : SolverState, (restart s).trail = [] ∧ (restart s).trail_head = s.trail_head) ∧
    (sat_loop 10 10 c1TailState).map Prod.fst = some true ∧
    (sat_loop 10 10 c1TailState).map
      (fun r => (c1TailState.clauseAt 0).literals.all
        (fun l => value_of r.2.assignments l == Value.FALSE)) = some true ∧
    c1TailState.trail = [] ∧
    c1TailState.trail_head = 2 ∧
    (c1TailState.clauseAt 0).literals = [1] := by
  refine ⟨initialise_no_unit_watched, fun s => ⟨?_, ?_⟩, ?_, ?_, rfl, rfl, rfl⟩
  · show (popAux s.trail.length 0 s).trail = []
    exact popAux_trail_nil s.trail.length s (Nat.le_refl _)
  · show (popAux s.trail.length 0 s).trail_head = s.trail_head
    exact popAux_trail_head s.trail.length 0 s
  · rfl
  · rfl

/-- Witness for C1: the general conjuncts applied to the concrete input
`[[1], [1, 2]]` over 2 variables, whose initialisation result is
`c1WitnessState`. -/
theorem claim_C1_witness :
    ((c1WitnessState.clauseAt 1).literals.length ≠ 1) ∧
    c1WitnessState.last_assignments = List.replicate 3 Value.FALSE ∧
    (restart c1WitnessState).trail = [] := by
  have h0 : initialise 2 [[1], [1, 2]] = some c1WitnessState := by decide
  have h := claim_C1_sat_trail_violates_unit
  obtain ⟨hwatch, hlast⟩ := h.1 2 [[1], [1, 2]] c1WitnessState h0
  refine ⟨?_, hlast, (h.2.1 c1WitnessState).1⟩
  exact hwatch (c1WitnessState.watchers.getD 1 []) (by decide) 1 (by decide)

/-- The `initialise` loop body preserves the literal list of every arena
slot (only watch indices are ever rewritten). -/
theorem initClause_clauseAt_literals (s : SolverState) (cid : Nat) (s1 : SolverState)
    (h : initClause s cid = some s1) (c0 : Nat) :
    (s1.clauseAt c0).literals = (s.clauseAt c0).literals := by
  simp only [initClause] at h
  by_cases h1 : (s.clauseAt cid).literals.length = 1
  · rw [if_pos h1] at h
    by_cases h2 : s.assignments.getD
        ((s.clauseAt cid).literals.getD 0 0).natAbs Value.UNASSIGNED = Value.UNASSIGNED
    · rw [if_pos h2] at h
      injection h with h
      subst h
      rfl
    · rw [if_neg h2] at h
      by_cases h3 : (if (s.clauseAt cid).literals.getD 0 0 > 0 then Value.TRUE else Value.FALSE)
          ≠ s.assignments.getD ((s.clauseAt cid).literals.getD 0 0).natAbs Value.UNASSIGNED
      · rw [if_pos h3] at h
        exact absurd h (by simp)
      · rw [if_neg h3] at h
        injection h with h
        subst h
        rfl
  · rw [if_neg h1] at h
    injection h with h
    subst h
    exact initWatch_clauseAt_literals s cid c0

/-- The `initialise` loop body never changes the value of a variable that
is already assigned (the unit branch writes only to a slot it has just
checked to be UNASSIGNED). -/
theorem initClause_pres_assigned (s : SolverState) (cid : Nat) (s1 : SolverState)
    (h : initClause s cid = some s1) (k : Nat)
    (hk : s.assignments.getD k Value.UNASSIGNED ≠ Value.UNASSIGNED) :
    s1.assignments.getD k Value.UNASSIGNED = s.assignments.getD k Value.UNASSIGNED := by
  simp only [initClause] at h
  by_cases h1 : (s.clauseAt cid).literals.length = 1
  · rw [if_pos h1] at h
    by_cases h2 : s.assignments.getD
        ((s.clauseAt cid).literals.getD 0 0).natAbs Value.UNASSIGNED = Value.UNASSIGNED
    · rw [if_pos h2] at h
      injection h with h
      subst h
      show (s.assignments.set ((s.clauseAt cid).literals.getD 0 0).natAbs _).getD k
        Value.UNASSIGNED = _
      have hne : ((s.clauseAt cid).literals.getD 0 0).natAbs ≠ k := by
        intro he
        rw [he] at h2
        exact hk h2
      rw [getD_set_ne _ _ _ _ _ hne]
    · rw [if_neg h2] at h
      by_cases h3 : (if (s.clauseAt cid).literals.getD 0 0 > 0 then Value.TRUE else Value.FALSE)
          ≠ s.assignments.getD ((s.clauseAt cid).literals.getD 0 0).natAbs Value.UNASSIGNED
      · rw [if_pos h3] at h
        exact absurd h (by simp)
      · rw [if_neg h3] at h
        injection h with h
        subst h
        rfl
  · rw [if_neg h1] at h
    injection h with h
    subst h
    rfl

/-- The `initialise` loop body preserves the length of the assignment
vector. -/
theorem initClause_assign_len (s : SolverState) (cid : Nat) (s1 : SolverState)
    (h : initClause s cid = some s1) :
    s1.assignments.length = s.assignments.length := by
  simp only [initClause] at h
  by_cases h1 : (s.clauseAt cid).literals.length = 1
  · rw [if_pos h1] at h
    by_cases h2 : s.assignments.getD
        ((s.clauseAt cid).literals.getD 0 0).natAbs Value.UNASSIGNED = Value.UNASSIGNED
    · rw [if_pos h2] at h
      injection h with h
      subst h
      exact List.length_set _ _ _
    · rw [if_neg h2] at h
      by_cases h3 : (if (s.clauseAt cid).literals.getD 0 0 > 0 then Value.TRUE else Value.FALSE)
          ≠ s.assignments.getD ((s.clauseAt cid).literals.getD 0 0).natAbs Value.UNASSIGNED
      · rw [if_pos h3] at h
        exact absurd h (by simp)
      · rw [if_neg h3] at h
        injection h with h
        subst h
        rfl
  · rw [if_neg h1] at h
    injection h with h
    subst h
    rfl

/-- Processing the unit clause `[l]` while its variable is unassigned
(and in bounds) assigns the variable the value matching the sign of
`l`. -/
theorem initClause_unit_assigns (s : SolverState) (cid : Nat) (s1 : SolverState) (l : Int)
    (h : initClause s cid = some s1)
    (hc : (s.clauseAt cid).literals = [l])
    (hu : s.assignments.getD l.natAbs Value.UNASSIGNED = Value.UNASSIGNED)
    (hb : l.natAbs < s.assignments.length) :
    s1.assignments.getD l.natAbs Value.UNASSIGNED
      = (if l > 0 then Value.TRUE else Value.FALSE) := by
  simp only [initClause, hc] at h
  rw [if_pos (by rfl : ([l] : List Int).length = 1)] at h
  rw [show ([l] : List Int).getD 0 0 = l from rfl] at h
  rw [if_pos hu] at h
  injection h with h
  subst h
  show (s.assignments.set l.natAbs _).getD l.natAbs Value.UNASSIGNED = _
  simp [List.getD, List.getElem?_set_self hb]

/-- Once a variable holds the value of literal `l` and a unit clause
`[-l]` is still to be processed, the `initialise` loop reports a
contradiction (returns false, modelled as `none`). -/
theorem initLoop_contra_assigned :
    ∀ (ids : List Nat) (s : SolverState) (l : Int) (j : Nat),
    l ≠ 0 → j ∈ ids → (s.clauseAt j).literals = [-l] →
    s.assignments.getD l.natAbs Value.UNASSIGNED = (if l > 0 then Value.TRUE else Value.FALSE) →
    initLoop ids s = none := by
  intro ids
  induction ids with
  | nil =>
    intro s l j _ hj _ _
    exact absurd hj (List.not_mem_nil j)
  | cons id rest ih =>
    intro s l j hl hj hcj hs
    rw [initLoop]
    by_cases hid : id = j
    · subst hid
      have hnone : initClause s id = none := by
        simp only [initClause, hcj]
        rw [if_pos (by rfl : ([-l] : List Int).length = 1)]
        rw [show ([-l] : List Int).getD 0 0 = -l from rfl]
        rw [Int.natAbs_neg, hs]
        have hvne : (if l > 0 then Value.TRUE else Value.FALSE) ≠ Value.UNASSIGNED := by
          by_cases h : l > 0 <;> simp [h]
        rw [if_neg hvne]
        have hopp : (if -l > 0 then Value.TRUE else Value.FALSE)
            ≠ (if l > 0 then Value.TRUE else Value.FALSE) := by
          by_cases h : l > 0
          · have h2 : ¬ (-l > 0) := by omega
            simp [h, h2]
          · have h2 : -l > 0 := by omega
            simp [h, h2]
        rw [if_pos hopp]
      rw [hnone]
    · have hjr : j ∈ rest := by
        rcases List.mem_cons.mp hj with h | h
        · exact absurd h.symm hid
        · exact h
      cases hic : initClause s id with
      | none => rfl
      | some s2 =>
        show initLoop rest s2 = none
        apply ih s2 l j hl hjr
        · rw [initClause_clauseAt_literals s id s2 hic j]
          exact hcj
        · rw [initClause_pres_assigned s id s2 hic l.natAbs (by
            rw [hs]
            by_cases h : l > 0 <;> simp [h])]
          exact hs

/-- If the clause list still to be processed contains a unit clause `[l]`
and a unit clause `[-l]` while the variable of `l` is unassigned (and in
bounds), the `initialise` loop reports a contradiction. -/
theorem initLoop_contra :
    ∀ (ids : List Nat) (s : SolverState) (l : Int) (i j : Nat),
    l ≠ 0 → i ∈ ids → j ∈ ids →
    (s.clauseAt i).literals = [l] → (s.clauseAt j).literals = [-l] →
    s.assignments.getD l.natAbs Value.UNASSIGNED = Value.UNASSIGNED →
    l.natAbs < s.assignments.length →
    initLoop ids s = none := by
  intro ids
  induction ids with
  | nil =>
    intro s l i j _ hi _ _ _ _ _
    exact absurd hi (List.not_mem_nil i)
  | cons id rest ih =>
    intro s l i j hl hi hj hci hcj hu hb
    have hij : i ≠ j := by
      intro he
      subst he
      rw [hci] at hcj
      injection hcj with h1 _
      omega
    rw [initLoop]
    cases hic : initClause s id with
    | none => rfl
    | some s2 =>
      show initLoop rest s2 = none
      have hlit2 : ∀ c0, (s2.clauseAt c0).literals = (s.clauseAt c0).literals :=
        initClause_clauseAt_literals s id s2 hic
      have hlen2 : s2.assignments.length = s.assignments.length :=
        initClause_assign_len s id s2 hic
      by_cases hidi : id = i
      · subst hidi
        have hs2 : s2.assignments.getD l.natAbs Value.UNASSIGNED
            = (if l > 0 then Value.TRUE else Value.FALSE) :=
          initClause_unit_assigns s id s2 l hic hci hu hb
        have hjr : j ∈ rest := by
          rcases List.mem_cons.mp hj with h | h
          · exact absurd h.symm hij
          · exact h
        exact initLoop_contra_assigned rest s2 l j hl hjr ((hlit2 j).trans hcj) hs2
      · by_cases hidj : id = j
        · subst hidj
          have hs2 : s2.assignments.getD (-l).natAbs Value.UNASSIGNED
              = (if -l > 0 then Value.TRUE else Value.FALSE) :=
            initClause_unit_assigns s id s2 (-l) hic hcj
              (by rw [Int.natAbs_neg]; exact hu) (by rw [Int.natAbs_neg]; exact hb)
          have hir : i ∈ rest := by
            rcases List.mem_cons.mp hi with h | h
            · exact absurd h.symm hidi
            · exact h
          refine initLoop_contra_assigned rest s2 (-l) i (by omega) hir ?_ hs2
          rw [hlit2 i, hci, neg_neg]
        · have hir : i ∈ rest := by
            rcases List.mem_cons.mp hi with h | h
            · exact absurd h.symm hidi
            · exact h
          have hjr : j ∈ rest := by
            rcases List.mem_cons.mp hj with h | h
            · exact absurd h.symm hidj
            · exact h
          cases hv2 : s2.assignments.getD l.natAbs Value.UNASSIGNED with
          | UNASSIGNED =>
            exact ih s2 l i j hl hir hjr ((hlit2 i).trans hci) ((hlit2 j).trans hcj) hv2
              (by omega)
          | TRUE =>
            by_cases hpos : l > 0
            · refine initLoop_contra_assigned rest s2 l j hl hjr ((hlit2 j).trans hcj) ?_
              rw [hv2, if_pos hpos]
            · refine initLoop_contra_assigned rest s2 (-l) i (by omega) hir ?_ ?_
              · rw [hlit2 i, hci, neg_neg]
              · rw [Int.natAbs_neg, hv2, if_pos (by omega : -l > 0)]
          | FALSE =>
            by_cases hpos : l > 0
            · refine initLoop_contra_assigned rest s2 (-l) i (by omega) hir ?_ ?_
              · rw [hlit2 i, hci, neg_neg]
              · rw [Int.natAbs_neg, hv2, if_neg (by omega : ¬ (-l > 0))]
            · refine initLoop_contra_assigned rest s2 l j hl hjr ((hlit2 j).trans hcj) ?_
              rw [hv2, if_neg hpos]

/-- C9: CONFIRMED.  If the parsed clause list contains a unit clause `[l]`
at position i and the opposite unit clause `[-l]` at position j (in either
order), `initialise` returns false (modelled `none`), and `main` prints
UNSATISFIABLE without invoking the search loop: the verdict is
UNSATISFIABLE for EVERY possible search-loop function, in particular one
that would claim satisfiability. -/
theorem claim_C9_unit_contradiction_short_circuits (nv : Nat) (cls : List (List Int))
    (l : Int) (i j : Nat)
    (hl : l ≠ 0) (hb : l.natAbs ≤ nv)
    (hi : i < cls.length) (hj : j < cls.length)
    (hci : cls.getD i [] = [l]) (hcj : cls.getD j [] = [-l]) :
    initialise nv cls = none ∧
    ∀ loop : SolverState → Bool, mainVerdict loop nv cls = "UNSATISFIABLE" := by
  have harena : ∀ k, k < cls.length →
      ((cls.map (fun c => ({ literals := c, watch1 := 0, watch2 := 0 } : Clause))).getD
        k default).literals = cls.getD k [] := by
    intro k hk
    rw [List.getD_eq_getElem _ _ (by simpa using hk), List.getElem_map,
      List.getD_eq_getElem _ _ hk]
  have hmain : initialise nv cls = none := by
    simp only [initialise]
    refine initLoop_contra (List.range cls.length) _ l i j hl
      (List.mem_range.mpr hi) (List.mem_range.mpr hj) ?_ ?_ ?_ ?_
    · exact (harena i hi).trans hci
    · exact (harena j hj).trans hcj
    · have hrep : (List.replicate (nv + 1) Value.UNASSIGNED).getD l.natAbs Value.UNASSIGNED
          = Value.UNASSIGNED := by
        by_cases hk : l.natAbs < nv + 1
        · rw [List.getD_eq_getElem _ _ (by simpa using hk)]
          simp
        · exact List.getD_eq_default _ _ (by simpa using hk)
      exact hrep
    · have hlen : l.natAbs < (List.replicate (nv + 1) Value.UNASSIGNED).length := by
        simpa using Nat.lt_succ_of_le hb
      exact hlen
  refine ⟨hmain, fun loop => ?_⟩
  simp only [mainVerdict, hmain]

/-- Witness for C9 at the concrete input `[[1], [-1]]` over one variable:
initialisation reports the contradiction and the verdict is UNSATISFIABLE
even for a search loop that always claims satisfiability. -/
theorem claim_C9_witness :
    initialise 1 [[1], [-1]] = none ∧
    mainVerdict (fun _ => true) 1 [[1], [-1]] = "UNSATISFIABLE" := by
  have h := claim_C9_unit_contradiction_short_circuits 1 [[1], [-1]] 1 0 1
    (by decide) (by decide) (by decide) (by decide) (by decide) (by decide)
  exact ⟨h.1, h.2 (fun _ => true)⟩

/-- Witness for C10 at the concrete assignment vector `[UNASSIGNED, TRUE]`
and literal 1. -/
theorem claim_C10_witness :
    (value_of [Value.UNASSIGNED, Value.TRUE] (-1) = Value.TRUE ↔
      value_of [Value.UNASSIGNED, Value.TRUE] 1 = Value.FALSE) ∧
    (value_of [Value.UNASSIGNED, Value.TRUE] (-1) = Value.FALSE ↔
      value_of [Value.UNASSIGNED, Value.TRUE] 1 = Value.TRUE) ∧
    (value_of [Value.UNASSIGNED, Value.TRUE] (-1) = Value.UNASSIGNED ↔
      value_of [Value.UNASSIGNED, Value.TRUE] 1 = Value.UNASSIGNED) :=
  claim_C10_value_of_negation [Value.UNASSIGNED, Value.TRUE] 1 (by decide)

/-- `List.set` at an index, read back at that index with the written value
as the default: always the written value (in bounds by the update,
out of bounds by the default). -/
theorem getD_set_same {α : Type} (l : List α) (i : Nat) (a : α) :
    (l.set i a).getD i a = a := by
  by_cases h : i < l.length
  · simp [List.getD, List.getElem?_set_self h]
  · rw [List.set_eq_of_length_le (by omega), List.getD_eq_default _ _ (by omega)]

/-- The trail-undo loop touches neither the conflict counters, nor the
decision stack, nor the propagation head. -/
theorem popAux_frame (n : Nat) : ∀ (stop : Nat) (s : SolverState),
    (popAux n stop s).num_conflicts = s.num_conflicts ∧
    (popAux n stop s).max_conflicts = s.max_conflicts ∧
    (popAux n stop s).trail_decisions = s.trail_decisions ∧
    (popAux n stop s).trail_head = s.trail_head := by
  induction n with
  | zero => intro stop s; exact ⟨rfl, rfl, rfl, rfl⟩
  | succ n ih =>
    intro stop s
    rw [popAux]
    by_cases h : stop < s.trail.length
    · rw [if_pos h]
      exact ih stop (unassignLast s)
    · rw [if_neg h]; exact ⟨rfl, rfl, rfl, rfl⟩

/-- Exact effect of the trail-undo loop run with the trail length as fuel
(as `backjump` and `restart` invoke it) on a trail without repeated
variables: the trail is cut at `stop`, the variables of the removed
segment are reset to UNASSIGNED / level -1 / no reason, and every other
variable keeps its assignment, level and reason. -/
theorem popAux_spec (n : Nat) : ∀ (stop : Nat) (s : SolverState),
    s.trail.length ≤ n →
    (s.trail.map Int.natAbs).Nodup →
    (popAux n stop s).trail = s.trail.take stop ∧
    (∀ v : Nat, v ∈ (s.trail.drop stop).map Int.natAbs →
      (popAux n stop s).assignments.getD v Value.UNASSIGNED = Value.UNASSIGNED ∧
      (popAux n stop s).decision_levels.getD v (-1) = -1 ∧
      (popAux n stop s).reasons.getD v none = none) ∧
    (∀ v : Nat, v ∉ (s.trail.drop stop).map Int.natAbs →
      (popAux n stop s).assignments.getD v Value.UNASSIGNED
        = s.assignments.getD v Value.UNASSIGNED ∧
      (popAux n stop s).decision_levels.getD v (-1) = s.decision_levels.getD v (-1) ∧
      (popAux n stop s).reasons.getD v none = s.reasons.getD v none) := by
  induction n with
  | zero =>
    intro stop s hlen _
    have h0 : s.trail = [] := List.eq_nil_of_length_eq_zero (Nat.le_zero.mp hlen)
    refine ⟨?_, ?_, fun v _ => ⟨rfl, rfl, rfl⟩⟩
    · rw [popAux, h0, List.take_nil]
    · intro v hv
      rw [h0] at hv
      simp at hv
  | succ n ih =>
    intro stop s hlen hnd
    rw [popAux]
    by_cases h : stop < s.trail.length
    · rw [if_pos h]
      have hne : s.trail ≠ [] := by
        intro hc; rw [hc] at h; simp at h
      set lastlit := s.trail.getLast hne with hlast
      have hget? : s.trail.getLast?.getD 0 = lastlit := by
        rw [List.getLast?_eq_getLast s.trail hne]; rfl
      have htr : (unassignLast s).trail = s.trail.dropLast := rfl
      have hsplit : s.trail.dropLast ++ [lastlit] = s.trail :=
        List.dropLast_append_getLast hne
      have hmapsplit : (s.trail.dropLast.map Int.natAbs) ++ [lastlit.natAbs]
          = s.trail.map Int.natAbs := by
        rw [show (s.trail.dropLast.map Int.natAbs) ++ [lastlit.natAbs]
            = (s.trail.dropLast ++ [lastlit]).map Int.natAbs by simp, hsplit]
      have hnd2 : ((unassignLast s).trail.map Int.natAbs).Nodup := by
        rw [htr]
        exact hnd.sublist ((List.dropLast_sublist s.trail).map Int.natAbs)
      have hlast_notin : lastlit.natAbs ∉ s.trail.dropLast.map Int.natAbs := by
        intro hc
        have := hmapsplit ▸ hnd
        rw [List.nodup_append] at this
        exact this.2.2 hc (by simp)
      have hlen2 : (unassignLast s).trail.length ≤ n := by
        rw [htr, List.length_dropLast]; omega
      obtain ⟨ih1, ih2, ih3⟩ := ih stop (unassignLast s) hlen2 hnd2
      have hstop' : stop ≤ s.trail.dropLast.length := by
        rw [List.length_dropLast]; omega
      have hdropsplit : s.trail.drop stop = s.trail.dropLast.drop stop ++ [lastlit] := by
        conv_lhs => rw [← hsplit]
        rw [List.drop_append_of_le_length hstop']
      have hassign : (unassignLast s).assignments
          = s.assignments.set lastlit.natAbs Value.UNASSIGNED := by
        show s.assignments.set (s.trail.getLast?.getD 0).natAbs Value.UNASSIGNED = _
        rw [hget?]
      have hdl : (unassignLast s).decision_levels
          = s.decision_levels.set lastlit.natAbs (-1) := by
        show s.decision_levels.set (s.trail.getLast?.getD 0).natAbs (-1) = _
        rw [hget?]
      have hrs : (unassignLast s).reasons
          = s.reasons.set lastlit.natAbs none := by
        show s.reasons.set (s.trail.getLast?.getD 0).natAbs none = _
        rw [hget?]
      refine ⟨?_, ?_, ?_⟩
      · rw [ih1, htr, List.dropLast_eq_take, List.take_take,
          Nat.min_eq_left (by omega)]
      · intro v hv
        rw [hdropsplit] at hv
        simp only [List.map_append, List.mem_append] at hv
        rcases hv with hv | hv
        · exact ih2 v (by rw [htr]; exact hv)
        · have hveq : v = lastlit.natAbs := by simpa using hv
          subst hveq
          have hnotin : lastlit.natAbs
              ∉ ((unassignLast s).trail.drop stop).map Int.natAbs := by
            intro hc
            rw [htr] at hc
            obtain ⟨l, hl, hle⟩ := List.mem_map.mp hc
            exact hlast_notin (List.mem_map.mpr ⟨l, List.mem_of_mem_drop hl, hle⟩)
          obtain ⟨j1, j2, j3⟩ := ih3 lastlit.natAbs hnotin
          refine ⟨?_, ?_, ?_⟩
          · rw [j1, hassign, getD_set_same]
          · rw [j2, hdl, getD_set_same]
          · rw [j3, hrs, getD_set_same]
      · intro v hv
        have hv' : v ∉ ((unassignLast s).trail.drop stop).map Int.natAbs := by
          intro hc
          apply hv
          rw [hdropsplit]
          simp only [List.map_append, List.mem_append]
          left; rw [htr] at hc; exact hc
        have hvne : lastlit.natAbs ≠ v := by
          intro hc
          apply hv
          rw [hdropsplit]
          simp only [List.map_append, List.mem_append]
          right; simp [hc]
        obtain ⟨j1, j2, j3⟩ := ih3 v hv'
        refine ⟨?_, ?_, ?_⟩
        · rw [j1, hassign, getD_set_ne _ _ _ _ _ hvne]
        · rw [j2, hdl, getD_set_ne _ _ _ _ _ hvne]
        · rw [j3, hrs, getD_set_ne _ _ _ _ _ hvne]
    · rw [if_neg h]
      push_neg at h
      refine ⟨(List.take_of_length_le h).symm, ?_, fun v _ => ⟨rfl, rfl, rfl⟩⟩
      intro v hv
      rw [List.drop_eq_nil_of_le h] at hv
      simp at hv

/-- The UIP scan of `backjump` over a clause segment without any literal at
the current decision level: the UIP accumulators pass through unchanged and
the returned highest level is the running maximum of the segment levels
over the initial accumulator. -/
theorem computeUip_none (dl : List Int) (d : Int) :
    ∀ (rest : List Int) (pos : Nat) (uip uidx hi : Int),
    (∀ m, m < rest.length → dl.getD (rest.getD m 0).natAbs (-1) ≠ d) →
    (computeUip dl d rest pos uip uidx hi).1 = uip ∧
    (computeUip dl d rest pos uip uidx hi).2.1 = uidx ∧
    hi ≤ (computeUip dl d rest pos uip uidx hi).2.2 ∧
    (∀ m, m < rest.length →
      dl.getD (rest.getD m 0).natAbs (-1) ≤ (computeUip dl d rest pos uip uidx hi).2.2) ∧
    ((computeUip dl d rest pos uip uidx hi).2.2 = hi ∨
      ∃ m, m < rest.length ∧
        dl.getD (rest.getD m 0).natAbs (-1) = (computeUip dl d rest pos uip uidx hi).2.2)
  | [], pos, uip, uidx, hi, _ =>
    ⟨rfl, rfl, le_refl _, fun m hm => absurd hm (by simp), Or.inl rfl⟩
  | l :: rest, pos, uip, uidx, hi, hne => by
    have hl : dl.getD l.natAbs (-1) ≠ d := hne 0 (by simp)
    rw [computeUip]
    simp only [if_pos hl]
    have hne' : ∀ m, m < rest.length → dl.getD (rest.getD m 0).natAbs (-1) ≠ d := by
      intro m hm
      exact hne (m + 1) (by simp; omega)
    set hi' := if dl.getD l.natAbs (-1) > hi then dl.getD l.natAbs (-1) else hi with hhi'
    have hup : hi ≤ hi' ∧ dl.getD l.natAbs (-1) ≤ hi' := by
      rw [hhi']
      by_cases hc : dl.getD l.natAbs (-1) > hi
      · rw [if_pos hc]; exact ⟨le_of_lt hc, le_refl _⟩
      · rw [if_neg hc]; exact ⟨le_refl _, by omega⟩
    obtain ⟨i1, i2, i3, i4, i5⟩ := computeUip_none dl d rest (pos + 1) uip uidx hi' hne'
    refine ⟨i1, i2, le_trans hup.1 i3, ?_, ?_⟩
    · intro m hm
      match m with
      | 0 => exact le_trans hup.2 i3
      | m + 1 =>
        have : m < rest.length := by simp at hm; omega
        exact i4 m this
    · rcases i5 with i5 | ⟨m, hm, hmeq⟩
      · by_cases hc : dl.getD l.natAbs (-1) > hi
        · have heq : hi' = dl.getD l.natAbs (-1) := by rw [hhi', if_pos hc]
          refine Or.inr ⟨0, by simp, ?_⟩
          rw [show (l :: rest).getD 0 0 = l from rfl]
          exact heq.symm.trans i5.symm
        · have heq : hi' = hi := by rw [hhi', if_neg hc]
          exact Or.inl (i5.trans heq)
      · exact Or.inr ⟨m + 1, by simp; omega, hmeq⟩

/-- The UIP scan of `backjump` over a clause with exactly one literal at
the current decision level, at position `k`: the scan returns that literal
as UIP, its absolute index `pos + k`, and as highest level the running
maximum of the other literals' levels over the initial accumulator. -/
theorem computeUip_unique (dl : List Int) (d : Int) :
    ∀ (rest : List Int) (k : Nat) (pos : Nat) (uip uidx hi : Int),
    k < rest.length →
    dl.getD (rest.getD k 0).natAbs (-1) = d →
    (∀ m, m < rest.length → m ≠ k → dl.getD (rest.getD m 0).natAbs (-1) ≠ d) →
    (computeUip dl d rest pos uip uidx hi).1 = rest.getD k 0 ∧
    (computeUip dl d rest pos uip uidx hi).2.1 = ((pos + k : Nat) : Int) ∧
    hi ≤ (computeUip dl d rest pos uip uidx hi).2.2 ∧
    (∀ m, m < rest.length → m ≠ k →
      dl.getD (rest.getD m 0).natAbs (-1) ≤ (computeUip dl d rest pos uip uidx hi).2.2) ∧
    ((computeUip dl d rest pos uip uidx hi).2.2 = hi ∨
      ∃ m, m < rest.length ∧ m ≠ k ∧
        dl.getD (rest.getD m 0).natAbs (-1) = (computeUip dl d rest pos uip uidx hi).2.2)
  | [], k, pos, uip, uidx, hi, hk, _, _ => absurd hk (by simp)
  | l :: rest, 0, pos, uip, uidx, hi, hk, hkd, hne => by
    have hl : dl.getD l.natAbs (-1) = d := hkd
    rw [computeUip]
    simp only [if_neg (not_not_intro hl)]
    have hne' : ∀ m, m < rest.length → dl.getD (rest.getD m 0).natAbs (-1) ≠ d := by
      intro m hm
      exact hne (m + 1) (by simp; omega) (by omega)
    obtain ⟨i1, i2, i3, i4, i5⟩ := computeUip_none dl d rest (pos + 1) l (pos : Int) hi hne'
    refine ⟨i1, by rw [i2]; simp, i3, ?_, ?_⟩
    · intro m hm hm0
      match m with
      | 0 => exact absurd rfl hm0
      | m + 1 =>
        have : m < rest.length := by simp at hm; omega
        exact i4 m this
    · rcases i5 with i5 | ⟨m, hm, hmeq⟩
      · exact Or.inl i5
      · exact Or.inr ⟨m + 1, by simp; omega, by omega, hmeq⟩
  | l :: rest, k + 1, pos, uip, uidx, hi, hk, hkd, hne => by
    have hl : dl.getD l.natAbs (-1) ≠ d := hne 0 (by simp) (by omega)
    rw [computeUip]
    simp only [if_pos hl]
    set hi' := if dl.getD l.natAbs (-1) > hi then dl.getD l.natAbs (-1) else hi with hhi'
    have hup : hi ≤ hi' ∧ dl.getD l.natAbs (-1) ≤ hi' := by
      rw [hhi']
      by_cases hc : dl.getD l.natAbs (-1) > hi
      · rw [if_pos hc]; exact ⟨le_of_lt hc, le_refl _⟩
      · rw [if_neg hc]; exact ⟨le_refl _, by omega⟩
    have hk' : k < rest.length := by simp at hk; omega
    have hkd' : dl.getD (rest.getD k 0).natAbs (-1) = d := hkd
    have hne' : ∀ m, m < rest.length → m ≠ k →
        dl.getD (rest.getD m 0).natAbs (-1) ≠ d := by
      intro m hm hmk
      exact hne (m + 1) (by simp; omega) (by omega)
    obtain ⟨i1, i2, i3, i4, i5⟩ :=
      computeUip_unique dl d rest k (pos + 1) uip uidx hi' hk' hkd' hne'
    refine ⟨i1, by rw [i2]; congr 1; omega, le_trans hup.1 i3, ?_, ?_⟩
    · intro m hm hmk
      match m with
      | 0 => exact le_trans hup.2 i3
      | m + 1 =>
        have : m < rest.length := by simp at hm; omega
        exact i4 m this (by omega)
    · rcases i5 with i5 | ⟨m, hm, hmk, hmeq⟩
      · by_cases hc : dl.getD l.natAbs (-1) > hi
        · have heq : hi' = dl.getD l.natAbs (-1) := by rw [hhi', if_pos hc]
          refine Or.inr ⟨0, by simp, by omega, ?_⟩
          rw [show (l :: rest).getD 0 0 = l from rfl]
          exact heq.symm.trans i5.symm
        · have heq : hi' = hi := by rw [hhi', if_neg hc]
          exact Or.inl (i5.trans heq)
      · exact Or.inr ⟨m + 1, by simp; omega, by omega, hmeq⟩

/-- `finishBackjump` leaves the conflict counter unchanged. -/
theorem finishBackjump_nc (uip hi : Int) (cid : Nat) (t : SolverState) :
    (finishBackjump uip hi cid t).num_conflicts = t.num_conflicts := rfl

/-- `finishBackjump` leaves the restart threshold unchanged. -/
theorem finishBackjump_mc (uip hi : Int) (cid : Nat) (t : SolverState) :
    (finishBackjump uip hi cid t).max_conflicts = t.max_conflicts := rfl

/-- Run of `backjump` on a learned clause of size at least 2 when neither
the clause-reduction nor the restart trigger fires: the call succeeds, the
decision stack of the result is the stack after the trail undo truncated
to `hi + 1` entries, and assignment, decision level and reason of every
variable other than the UIP variable are exactly as the trail undo left
them. -/
theorem backjump_facts (lc : List Int) (s : SolverState) (uip uidx hi : Int) (stop : Nat)
    (hr : computeUip s.decision_levels ((s.trail_decisions.length : Int) - 1) lc 0 0 (-1) 0
        = (uip, uidx, hi))
    (hnu : lc.length ≠ 1) (hge : 0 ≤ uidx)
    (hstop : s.trail_decisions.getD (hi + 1).toNat 0 = stop)
    (hnored : ¬ s.num_conflicts % reduction_threshold = 0)
    (hnores : ¬ s.num_conflicts ≥ s.max_conflicts) :
    ∃ s8, backjump lc s = some s8 ∧
      s8.trail_decisions
        = (popAux s.trail.length stop s).trail_decisions.take (hi + 1).toNat ∧
      (∀ v : Nat, v ≠ uip.natAbs →
        s8.assignments.getD v Value.UNASSIGNED
          = (popAux s.trail.length stop s).assignments.getD v Value.UNASSIGNED ∧
        s8.decision_levels.getD v (-1)
          = (popAux s.trail.length stop s).decision_levels.getD v (-1) ∧
        s8.reasons.getD v none
          = (popAux s.trail.length stop s).reasons.getD v none) := by
  have hfr := popAux_frame s.trail.length stop s
  have h1' : ¬ (popAux s.trail.length stop s).num_conflicts % reduction_threshold = 0 := by
    rw [hfr.1]; exact hnored
  have h2' : ¬ (popAux s.trail.length stop s).num_conflicts
      ≥ (popAux s.trail.length stop s).max_conflicts := by
    rw [hfr.1, hfr.2.1]; exact hnores
  simp only [backjump]
  rw [hr]
  dsimp only
  rw [if_neg hnu, hstop, if_pos hnu]
  rw [if_neg (not_lt.mpr hge)]
  dsimp only
  simp only [finishBackjump_nc, finishBackjump_mc]
  rw [if_neg h1']
  simp only [finishBackjump_nc, finishBackjump_mc]
  rw [if_neg h2']
  refine ⟨_, rfl, rfl, ?_⟩
  intro v hv
  refine ⟨?_, ?_, ?_⟩
  · exact getD_set_ne _ _ _ _ _ (fun h => hv h.symm)
  · exact getD_set_ne _ _ _ _ _ (fun h => hv h.symm)
  · exact getD_set_ne _ _ _ _ _ (fun h => hv h.symm)

/-- The analogue of `backjump_facts` for a learned clause of size 1 (the
decision stack is truncated to a single entry and the trail undo stops at
`trail_decisions[1]`). -/
theorem backjump_facts_unit (lc : List Int) (s : SolverState) (uip uidx hi : Int) (stop : Nat)
    (hr : computeUip s.decision_levels ((s.trail_decisions.length : Int) - 1) lc 0 0 (-1) 0
        = (uip, uidx, hi))
    (hu : lc.length = 1)
    (hstop : s.trail_decisions.getD (1 : Int).toNat 0 = stop)
    (hnored : ¬ s.num_conflicts % reduction_threshold = 0)
    (hnores : ¬ s.num_conflicts ≥ s.max_conflicts) :
    ∃ s8, backjump lc s = some s8 ∧
      s8.trail_decisions = (popAux s.trail.length stop s).trail_decisions.take 1 ∧
      (∀ v : Nat, v ≠ uip.natAbs →
        s8.assignments.getD v Value.UNASSIGNED
          = (popAux s.trail.length stop s).assignments.getD v Value.UNASSIGNED ∧
        s8.decision_levels.getD v (-1)
          = (popAux s.trail.length stop s).decision_levels.getD v (-1) ∧
        s8.reasons.getD v none
          = (popAux s.trail.length stop s).reasons.getD v none) := by
  have hfr := popAux_frame s.trail.length stop s
  have h1' : ¬ (popAux s.trail.length stop s).num_conflicts % reduction_threshold = 0 := by
    rw [hfr.1]; exact hnored
  have h2' : ¬ (popAux s.trail.length stop s).num_conflicts
      ≥ (popAux s.trail.length stop s).max_conflicts := by
    rw [hfr.1, hfr.2.1]; exact hnores
  simp only [backjump]
  rw [hr]
  dsimp only
  rw [if_pos hu, hstop, if_neg (not_not_intro hu)]
  dsimp only
  simp only [finishBackjump_nc, finishBackjump_mc]
  rw [if_neg h1']
  simp only [finishBackjump_nc, finishBackjump_mc]
  rw [if_neg h2']
  refine ⟨_, rfl, rfl, ?_⟩
  intro v hv
  refine ⟨?_, ?_, ?_⟩
  · exact getD_set_ne _ _ _ _ _ (fun h => hv h.symm)
  · exact getD_set_ne _ _ _ _ _ (fun h => hv h.symm)
  · exact getD_set_ne _ _ _ _ _ (fun h => hv h.symm)

/-- A list element at a position at or past `stop` is in the drop at
`stop`. -/
theorem mem_drop_of_le (l : List Int) (stop p : Nat) (hp : p < l.length) (hsp : stop ≤ p) :
    l.getD p 0 ∈ l.drop stop := by
  have hj : p - stop < (l.drop stop).length := by rw [List.length_drop]; omega
  have he : (l.drop stop).get ⟨p - stop, hj⟩ = l.getD p 0 := by
    rw [List.getD_eq_getElem l 0 hp]
    show (l.drop stop)[p - stop] = l[p]
    rw [List.getElem_drop]
    congr 1
    omega
  rw [← he]
  exact List.get_mem _ _ _

/-- C7: CONFIRMED for fieldSAT.cpp.  When the watcher scan of `propagate`
reaches an entry whose other watched literal `other` is UNASSIGNED and no
replacement watch exists, it performs the unit implication: the scan step
continues at index i+1 on the state extended by `other`; that state pushes
`other` onto the trail, sets the value of `other`'s own variable to the
value matching `other`'s sign, increments `assigned_vars`, and changes no
other variable's assignment (in particular not the variable of the literal
being propagated). -/
theorem claim_C7_unit_implication (fuel : Nat) (s : SolverState) (index i : Nat)
    (literal : Int) (cid : Nat) (c : Clause) (other : Int)
    (hwl : i < (s.watchers.getD index []).length)
    (hcid : (s.watchers.getD index []).getD i 0 = cid)
    (hc : s.clauseAt cid = c)
    (hother : (if c.literals.getD c.watch1 0 = -literal then c.literals.getD c.watch2 0
        else c.literals.getD c.watch1 0) = other)
    (hun : value_of s.assignments other = Value.UNASSIGNED)
    (hnorepl : findReplacement s.assignments (c.literals.getD c.watch1 0)
        (c.literals.getD c.watch2 0) c.literals 0 = none) :
    propScan (fuel + 1) s index i literal
      = propScan fuel (applyUnitImp s cid other) index (i + 1) literal ∧
    (applyUnitImp s cid other).trail = s.trail ++ [other] ∧
    (applyUnitImp s cid other).assignments
      = s.assignments.set other.natAbs (if other > 0 then Value.TRUE else Value.FALSE) ∧
    (applyUnitImp s cid other).assigned_vars = s.assigned_vars + 1 ∧
    (∀ v : Nat, v ≠ other.natAbs →
      (applyUnitImp s cid other).assignments.getD v Value.UNASSIGNED
        = s.assignments.getD v Value.UNASSIGNED) := by
  subst hcid hc hother
  refine ⟨?_, rfl, rfl, rfl, ?_⟩
  · simp only [propScan]
    rw [if_pos hwl]
    by_cases hA : ((s.clauseAt ((s.watchers.getD index []).getD i 0)).literals.getD
        (s.clauseAt ((s.watchers.getD index []).getD i 0)).watch1 0) = -literal
    · simp only [if_pos hA] at hun ⊢
      rw [if_neg (fun h => Value.noConfusion (hun.symm.trans h)), hnorepl]
      rw [if_neg (fun h => Value.noConfusion (hun.symm.trans h))]
    · simp only [if_neg hA] at hun ⊢
      rw [if_neg (fun h => Value.noConfusion (hun.symm.trans h)), hnorepl]
      rw [if_neg (fun h => Value.noConfusion (hun.symm.trans h))]
  · intro v hv
    exact getD_set_ne _ _ _ _ _ (fun h => hv h.symm)

/-- Witness for C7 on `c7State`: propagating literal 1 through clause 0 =
[-1, 2] unit-implies the other watched literal 2; the trail is extended
by 2, variable 2 is set TRUE, `assigned_vars` grows by one and variable 1
(the variable of the propagated literal) is untouched. -/
theorem claim_C7_witness :
    propScan 6 c7State 0 0 1 = propScan 5 (applyUnitImp c7State 0 2) 0 1 1 ∧
    (applyUnitImp c7State 0 2).trail = c7State.trail ++ [(2 : Int)] ∧
    (applyUnitImp c7State 0 2).assignments
      = c7State.assignments.set (2 : Int).natAbs
          (if (2 : Int) > 0 then Value.TRUE else Value.FALSE) ∧
    (applyUnitImp c7State 0 2).assigned_vars = c7State.assigned_vars + 1 ∧
    (applyUnitImp c7State 0 2).assignments.getD 1 Value.UNASSIGNED
      = c7State.assignments.getD 1 Value.UNASSIGNED := by
  have h := claim_C7_unit_implication 5 c7State 0 0 1 0 (c7State.clauseAt 0) 2
    (by decide) rfl rfl (by decide) (by decide) (by decide)
  exact ⟨h.1, h.2.1, h.2.2.1, h.2.2.2.1, h.2.2.2.2 1 (by decide)⟩

/-- C8: CONFIRMED (for the backjump steps proper, with the conflict
counters away from the reduce/restart triggers that the same C++ function
fires afterwards).  With a unique current-level literal at position `k` of
the learned clause and a trail segment structure matching the decision
stack, `backjump` computes the backjump level b as the maximum decision
level over the clause's literals excluding the UIP (with b = 0 for a unit
clause), succeeds, truncates the decision stack to length b+1, leaves
value, decision level and reason of every non-UIP variable assigned at a
level at most b unchanged, and unassigns (value UNASSIGNED, level -1,
reason NONE) every non-UIP trail variable assigned at a level greater
than b. -/
theorem claim_C8_backjump_level_and_frame
    (s : SolverState) (lc : List Int) (k : Nat) (b : Int) (stop : Nat)
    (hd : 1 ≤ (s.trail_decisions.length : Int) - 1)
    (hk : k < lc.length)
    (huip : s.decision_levels.getD (lc.getD k 0).natAbs (-1)
        = (s.trail_decisions.length : Int) - 1)
    (hothers : ∀ m, m < lc.length → m ≠ k →
       0 ≤ s.decision_levels.getD (lc.getD m 0).natAbs (-1) ∧
       s.decision_levels.getD (lc.getD m 0).natAbs (-1)
         < (s.trail_decisions.length : Int) - 1)
    (hb : (computeUip s.decision_levels ((s.trail_decisions.length : Int) - 1)
        lc 0 0 (-1) 0).2.2 = b)
    (hstop : s.trail_decisions.getD (b + 1).toNat 0 = stop)
    (hseg : ∀ p, p < s.trail.length →
       (b < s.decision_levels.getD (s.trail.getD p 0).natAbs (-1) ↔ stop ≤ p))
    (hnodup : (s.trail.map Int.natAbs).Nodup)
    (hnored : ¬ s.num_conflicts % reduction_threshold = 0)
    (hnores : ¬ s.num_conflicts ≥ s.max_conflicts) :
    (0 ≤ b ∧
     (∀ m, m < lc.length → m ≠ k →
        s.decision_levels.getD (lc.getD m 0).natAbs (-1) ≤ b) ∧
     (b = 0 ∨ ∃ m, m < lc.length ∧ m ≠ k ∧
        s.decision_levels.getD (lc.getD m 0).natAbs (-1) = b) ∧
     (lc.length = 1 → b = 0)) ∧
    ∃ s8, backjump lc s = some s8 ∧
      s8.trail_decisions = s.trail_decisions.take (b + 1).toNat ∧
      s8.trail_decisions.length = (b + 1).toNat ∧
      (∀ v : Nat, v ≠ (lc.getD k 0).natAbs →
         s.decision_levels.getD v (-1) ≤ b →
         s8.assignments.getD v Value.UNASSIGNED = s.assignments.getD v Value.UNASSIGNED ∧
         s8.decision_levels.getD v (-1) = s.decision_levels.getD v (-1) ∧
         s8.reasons.getD v none = s.reasons.getD v none) ∧
      (∀ p : Nat, p < s.trail.length →
         (s.trail.getD p 0).natAbs ≠ (lc.getD k 0).natAbs →
         b < s.decision_levels.getD (s.trail.getD p 0).natAbs (-1) →
         s8.assignments.getD (s.trail.getD p 0).natAbs Value.UNASSIGNED
           = Value.UNASSIGNED ∧
         s8.decision_levels.getD (s.trail.getD p 0).natAbs (-1) = -1 ∧
         s8.reasons.getD (s.trail.getD p 0).natAbs none = none) := by
  have hne_level : ∀ m, m < lc.length → m ≠ k →
      s.decision_levels.getD (lc.getD m 0).natAbs (-1)
        ≠ (s.trail_decisions.length : Int) - 1 :=
    fun m hm hmk => ne_of_lt (hothers m hm hmk).2
  obtain ⟨r1, r2, r3, r4, r5⟩ := computeUip_unique s.decision_levels
    ((s.trail_decisions.length : Int) - 1) lc k 0 0 (-1) 0 hk huip hne_level
  have hb0 : (0 : Int) ≤ b := hb ▸ r3
  have hbound : ∀ m, m < lc.length → m ≠ k →
      s.decision_levels.getD (lc.getD m 0).natAbs (-1) ≤ b := by
    intro m hm hmk
    rw [← hb]
    exact r4 m hm hmk
  have hattain : b = 0 ∨ ∃ m, m < lc.length ∧ m ≠ k ∧
      s.decision_levels.getD (lc.getD m 0).natAbs (-1) = b := by
    rcases r5 with h | ⟨m, hm, hmk, hmeq⟩
    · exact Or.inl (hb.symm.trans h)
    · exact Or.inr ⟨m, hm, hmk, hmeq.trans hb⟩
  have hunit : lc.length = 1 → b = 0 := by
    intro h1
    rcases hattain with h | ⟨m, hm, hmk, _⟩
    · exact h
    · rw [h1] at hm
      omega
  have hbd : b < (s.trail_decisions.length : Int) - 1 := by
    rcases hattain with h | ⟨m, hm, hmk, hmeq⟩
    · rw [h]; omega
    · rw [← hmeq]; exact (hothers m hm hmk).2
  refine ⟨⟨hb0, hbound, hattain, hunit⟩, ?_⟩
  obtain ⟨p1, p2, p3⟩ := popAux_spec s.trail.length stop s (le_refl _) hnodup
  have hfr := popAux_frame s.trail.length stop s
  have hkept : ∀ v : Nat, s.decision_levels.getD v (-1) ≤ b →
      v ∉ (s.trail.drop stop).map Int.natAbs := by
    intro v hlev hvmem
    obtain ⟨l, hl, hlv⟩ := List.mem_map.mp hvmem
    obtain ⟨j, hj, hgl⟩ := List.getElem_of_mem hl
    have hp : stop + j < s.trail.length := by
      rw [List.length_drop] at hj
      omega
    have htv : s.trail.getD (stop + j) 0 = l := by
      rw [List.getD_eq_getElem s.trail 0 hp, ← hgl]
      exact (List.getElem_drop s.trail).symm
    have hcontra := (hseg (stop + j) hp).mpr (by omega)
    rw [htv, hlv] at hcontra
    omega
  have htriple : computeUip s.decision_levels ((s.trail_decisions.length : Int) - 1)
      lc 0 0 (-1) 0
      = ((computeUip s.decision_levels ((s.trail_decisions.length : Int) - 1)
          lc 0 0 (-1) 0).1,
         (computeUip s.decision_levels ((s.trail_decisions.length : Int) - 1)
          lc 0 0 (-1) 0).2.1,
         (computeUip s.decision_levels ((s.trail_decisions.length : Int) - 1)
          lc 0 0 (-1) 0).2.2) := rfl
  rw [r1, r2, hb] at htriple
  by_cases hu : lc.length = 1
  · have hbz := hunit hu
    have hstop' : s.trail_decisions.getD (1 : Int).toNat 0 = stop := by
      rw [hbz] at hstop
      rw [show ((0 : Int) + 1) = 1 from by norm_num] at hstop
      exact hstop
    obtain ⟨s8, hbj, htd, hget⟩ := backjump_facts_unit lc s (lc.getD k 0)
      (((0 + k : Nat) : Int)) b stop htriple hu hstop' hnored hnores
    refine ⟨s8, hbj, ?_, ?_, ?_, ?_⟩
    · rw [htd, hfr.2.2.1, hbz]
      norm_num
    · rw [htd, hfr.2.2.1, List.length_take, hbz]
      omega
    · intro v hv hlev
      have hnm := hkept v hlev
      obtain ⟨q1, q2, q3⟩ := p3 v hnm
      obtain ⟨w1, w2, w3⟩ := hget v hv
      exact ⟨w1.trans q1, w2.trans q2, w3.trans q3⟩
    · intro p hp hvne hlev
      have hsp : stop ≤ p := (hseg p hp).mp hlev
      have hmem : (s.trail.getD p 0).natAbs ∈ (s.trail.drop stop).map Int.natAbs :=
        List.mem_map.mpr ⟨s.trail.getD p 0, mem_drop_of_le s.trail stop p hp hsp, rfl⟩
      obtain ⟨q1, q2, q3⟩ := p2 _ hmem
      obtain ⟨w1, w2, w3⟩ := hget _ hvne
      exact ⟨w1.trans q1, w2.trans q2, w3.trans q3⟩
  · have hge : (0 : Int) ≤ ((0 + k : Nat) : Int) := Int.natCast_nonneg _
    obtain ⟨s8, hbj, htd, hget⟩ := backjump_facts lc s (lc.getD k 0)
      (((0 + k : Nat) : Int)) b stop htriple hu hge hstop hnored hnores
    refine ⟨s8, hbj, ?_, ?_, ?_, ?_⟩
    · rw [htd, hfr.2.2.1]
    · rw [htd, hfr.2.2.1, List.length_take]
      omega
    · intro v hv hlev
      have hnm := hkept v hlev
      obtain ⟨q1, q2, q3⟩ := p3 v hnm
      obtain ⟨w1, w2, w3⟩ := hget v hv
      exact ⟨w1.trans q1, w2.trans q2, w3.trans q3⟩
    · intro p hp hvne hlev
      have hsp : stop ≤ p := (hseg p hp).mp hlev
      have hmem : (s.trail.getD p 0).natAbs ∈ (s.trail.drop stop).map Int.natAbs :=
        List.mem_map.mpr ⟨s.trail.getD p 0, mem_drop_of_le s.trail stop p hp hsp, rfl⟩
      obtain ⟨q1, q2, q3⟩ := p2 _ hmem
      obtain ⟨w1, w2, w3⟩ := hget _ hvne
      exact ⟨w1.trans q1, w2.trans q2, w3.trans q3⟩

/-- Witness for C8 on `c8State` with learned clause [-3, -1] (UIP -3 at
level 2, other literal at level 1, so b = 1): the call succeeds, the
decision stack becomes its first two entries, variable 1 (level 1 ≤ b)
keeps its value and level, and variable 2 (level 2 > b) is unassigned with
level -1 and no reason. -/
theorem claim_C8_witness :
    (backjump [-3, -1] c8State).map SolverState.trail_decisions
      = some (c8State.trail_decisions.take ((1 : Int) + 1).toNat) ∧
    (backjump [-3, -1] c8State).map (fun t => t.assignments.getD 1 Value.UNASSIGNED)
      = some (c8State.assignments.getD 1 Value.UNASSIGNED) ∧
    (backjump [-3, -1] c8State).map (fun t => t.decision_levels.getD 1 (-1))
      = some (c8State.decision_levels.getD 1 (-1)) ∧
    (backjump [-3, -1] c8State).map (fun t => t.assignments.getD 2 Value.UNASSIGNED)
      = some Value.UNASSIGNED ∧
    (backjump [-3, -1] c8State).map (fun t => t.decision_levels.getD 2 (-1))
      = some (-1) ∧
    (backjump [-3, -1] c8State).map (fun t => t.reasons.getD 2 none) = some none := by
  obtain ⟨-, s8, hbj, h1, h2, h3, h4⟩ := claim_C8_backjump_level_and_frame c8State
    [-3, -1] 0 1 1
    (by decide) (by decide) (by decide)
    (by
      intro m hm hmk
      have hm1 : m = 1 := by
        simp only [List.length_cons, List.length_nil] at hm
        omega
      subst hm1
      exact ⟨by decide, by decide⟩)
    (by decide) (by decide)
    (by
      intro p hp
      have hp3 : p < 3 := hp
      have hp012 : p = 0 ∨ p = 1 ∨ p = 2 := by omega
      rcases hp012 with h | h | h <;> subst h <;> constructor <;> decide)
    (by decide) (by decide) (by decide)
  have h3' := h3 1 (by decide) (by decide)
  have h4' := h4 1 (by decide) (by decide) (by decide)
  rw [hbj]
  refine ⟨congrArg some h1, ?_, ?_, ?_, ?_, ?_⟩
  · exact congrArg some h3'.1
  · exact congrArg some h3'.2.1
  · exact congrArg some h4'.1
  · exact congrArg some h4'.2.1
  · exact congrArg some h4'.2.2
